import Mathlib

/-!
# SMC client (`smc.c`): key codec, key-info cache and read/write protocol

A shallow embedding of `src/smc.c`.

Conventions of the embedding.

* A C `char` cell is stored as its raw byte, a `Nat` in `0..255`.  The file
  includes IOKit headers, so it is only built for Apple targets, whose ABIs
  (i386, x86_64, arm64) all make plain `char` a *signed* 8-bit type; reading
  a cell as an `int` therefore goes through `charToInt`.
* `UInt32` values are `Nat`; arithmetic on them is reduced `% 2^32`
  wherever the C code can overflow.  `int` values are `Int`.
* `kern_return_t` is `Int`.
* The global key-info cache is explicit state; the transport
  (`IOConnectCallStructMethod`) is a parameter acting on an abstract world.
-/

namespace SMC

/-! ## Key codec -/

/-- The value of a `char` cell when it is promoted to `int` (plain `char`
is signed on every Apple ABI): bytes `0x80..0xFF` read as `-128..-1`. -/
def charToInt (b : Nat) : Int :=
  if b % 256 < 128 then ((b % 256 : Nat) : Int) else ((b % 256 : Nat) : Int) - 256

/-- Reduction of a mathematical integer to the 32-bit two's complement
`int` range, as produced by `<<` on an `int` operand. -/
def wrapInt32 (x : Int) : Int := (x + 2 ^ 31) % 2 ^ 32 - 2 ^ 31

/-- Conversion of an `int` to `UInt32` (reduction modulo `2^32`). -/
def toUInt32 (x : Int) : Nat := (x % 2 ^ 32).toNat

/-- Conversion of an `int` to `unsigned char` (reduction modulo `2^8`). -/
def toUChar (x : Int) : Nat := (x % 256).toNat

/-- The expression `str[i] << (size - 1 - i) * 8`: the cell is promoted to
`int` and shifted left, the result being an `int`.  (The shift count is
below 32 whenever `size <= 4`.) -/
def shiftedChar (str : List Nat) (size : Int) (i : Nat) : Int :=
  wrapInt32 (charToInt (str.getD i 0) * 2 ^ ((size - 1 - (i : Int)) * 8).toNat)

/-- The `for` loop of `_strtoul`, started at index `i` with accumulator
`total`; `fuel` bounds the number of iterations still to run. -/
def strtoulLoop (str : List Nat) (size base : Int) : Nat → Nat → Nat → Nat
  | 0, _, total => total
  | fuel + 1, i, total =>
    if (i : Int) < size then
      if base = 16 then
        strtoulLoop str size base fuel (i + 1)
          (toUInt32 ((total : Int) + shiftedChar str size i))
      else
        strtoulLoop str size base fuel (i + 1)
          (toUInt32 ((total : Int) + (toUChar (shiftedChar str size i) : Int)))
    else total

/-- `UInt32 _strtoul(const char *str, int size, int base)`. -/
def _strtoul (str : List Nat) (size base : Int) : Nat :=
  strtoulLoop str size base size.toNat 0 0

/-- `void _ultostr(char *str, UInt32 val)`: the new contents of the buffer
`str`.  `snprintf` with `"%c%c%c%c"` stores the low byte of each argument
in cells 0..3 and the terminator in cell 4; later cells are untouched. -/
def _ultostr (str : List Nat) (val : Nat) : List Nat :=
  [ ((val % 2 ^ 32) >>> 24) % 256,
    ((val % 2 ^ 32) >>> 16) % 256,
    ((val % 2 ^ 32) >>> 8) % 256,
    (val % 2 ^ 32) % 256,
    0 ] ++ str.drop 5

/-- The big-endian packing of four bytes, first byte most significant. -/
def bigEndian (b0 b1 b2 b3 : Nat) : Nat :=
  b0 * 2 ^ 24 + b1 * 2 ^ 16 + b2 * 2 ^ 8 + b3

/-! ## Records and constants -/

/-- IOKit's `kIOReturnSuccess` (`KERN_SUCCESS`). -/
def kIOReturnSuccess : Int := 0

/-- IOKit's `kIOReturnError`, `iokit_common_err(0x2bc) = 0xe00002bc`, read
as the (signed) `kern_return_t`. -/
def kIOReturnError : Int := 0xe00002bc - 2 ^ 32

/-- `#define KEY_INFO_CACHE_SIZE 100`. -/
def KEY_INFO_CACHE_SIZE : Nat := 100

/-- Modelled from the spec: `smc.h` is not part of the sources at hand.  The
selector of the single kernel call the client uses ("exactly one call
index"). -/
def KERNEL_INDEX_SMC : Int := 2

/-- Modelled from the spec: `smc.h` is not part of the sources at hand.  The
single-byte sub-command code for "read bytes". -/
def SMC_CMD_READ_BYTES : Nat := 5

/-- Modelled from the spec: `smc.h` is not part of the sources at hand.  The
single-byte sub-command code for "write bytes". -/
def SMC_CMD_WRITE_BYTES : Nat := 6

/-- Modelled from the spec: `smc.h` is not part of the sources at hand.  The
single-byte sub-command code for "read key info". -/
def SMC_CMD_READ_KEYINFO : Nat := 9

/-- Modelled from the spec: `smc.h` is not part of the sources at hand.  The
metadata sub-record: byte length, type tag and attribute flags. -/
structure SMCKeyData_keyInfo_t where
  dataSize : Nat
  dataType : Nat
  dataAttributes : Nat
deriving DecidableEq, Repr

/-- Modelled from the spec: `smc.h` is not part of the sources at hand.  The
fixed-size request/response record: target key, metadata sub-record,
single-byte sub-command selector `data8`, the 32-byte payload region, and
`others`, standing for every remaining field of the record (fields that
`smc.c` never names; zero after `memset`). -/
structure SMCKeyData_t where
  key : Nat
  keyInfo : SMCKeyData_keyInfo_t
  data8 : Nat
  bytes : List Nat
  others : Nat
deriving DecidableEq, Repr

/-- Modelled from the spec: `smc.h` is not part of the sources at hand.  The
key value record: key text and type text (four characters and a
terminator each), declared byte length, and the 32-byte buffer. -/
structure SMCVal_t where
  key : List Nat
  dataSize : Nat
  dataType : List Nat
  bytes : List Nat
deriving DecidableEq, Repr

/-- A metadata sub-record after `memset(.., 0, ..)`. -/
def zeroKeyInfo : SMCKeyData_keyInfo_t :=
  { dataSize := 0, dataType := 0, dataAttributes := 0 }

/-- A request/response record after `memset(.., 0, sizeof(SMCKeyData_t))`. -/
def zeroKeyData : SMCKeyData_t :=
  { key := 0, keyInfo := zeroKeyInfo, data8 := 0, bytes := List.replicate 32 0, others := 0 }

/-- A value record after `memset(val, 0, sizeof(SMCVal_t))`. -/
def zeroVal : SMCVal_t :=
  { key := List.replicate 5 0, dataSize := 0, dataType := List.replicate 5 0,
    bytes := List.replicate 32 0 }

/-! ## The key-info cache and the transport -/

/-- One slot of `g_keyInfoCache`. -/
structure CacheEntry where
  key : Nat
  keyInfo : SMCKeyData_keyInfo_t
deriving DecidableEq, Repr

/-- The array `g_keyInfoCache[KEY_INFO_CACHE_SIZE]`: exactly 100 slots. -/
structure KeyInfoCache where
  slots : List CacheEntry
  size_eq : slots.length = KEY_INFO_CACHE_SIZE

/-- The slot `g_keyInfoCache[i]`. -/
def KeyInfoCache.read (c : KeyInfoCache) (i : Nat) : CacheEntry :=
  c.slots.getD i ⟨0, zeroKeyInfo⟩

/-- The array after the assignments to `g_keyInfoCache[i].key` and
`g_keyInfoCache[i].keyInfo`. -/
def KeyInfoCache.write (c : KeyInfoCache) (i : Nat) (e : CacheEntry) : KeyInfoCache :=
  ⟨c.slots.set i e, by rw [List.length_set]; exact c.size_eq⟩

/-- The zero-initialised global array. -/
def KeyInfoCache.empty : KeyInfoCache :=
  ⟨List.replicate KEY_INFO_CACHE_SIZE ⟨0, zeroKeyInfo⟩, List.length_replicate _ _⟩

/-- The external primitive `IOConnectCallStructMethod`: from the state of
the outside world, the connection, the selector, the input record and the
current contents of the output record, it yields the status, the new
contents of the output record and the new state of the world. -/
abbrev Transport (σ : Type) :=
  σ → Nat → Int → SMCKeyData_t → SMCKeyData_t → Int × SMCKeyData_t × σ

/-- The program state: the two cache globals, the outside world, and the
log of the input records passed to the transport, oldest first. -/
structure State (σ : Type) where
  g_keyInfoCache : KeyInfoCache
  g_keyInfoCacheCount : Int
  world : σ
  calls : List SMCKeyData_t

/-- The state at program start: `g_keyInfoCacheCount = 0`, no call made. -/
def State.init {σ : Type} (w : σ) : State σ :=
  { g_keyInfoCache := KeyInfoCache.empty, g_keyInfoCacheCount := 0, world := w, calls := [] }

/-- `SMCCall`: one call of the transport; returns the status, the new
output record and the new state. -/
def SMCCall {σ : Type} (io : Transport σ) (s : State σ) (conn : Nat) (index : Int)
    (inputStructure outputStructure : SMCKeyData_t) : Int × SMCKeyData_t × State σ :=
  let r := io s.world conn index inputStructure outputStructure
  (r.1, r.2.1, { s with world := r.2.2, calls := s.calls ++ [inputStructure] })

/-! ## The protocol -/

/-- The scan loop of `SMCGetKeyInfo`, started at index `i`: returns the
final value of `i` and of `*keyInfo`.  `fuel` bounds the iterations still
to run. -/
def scanLoop (cache : KeyInfoCache) (count : Int) (key : Nat) :
    Nat → Nat → SMCKeyData_keyInfo_t → Nat × SMCKeyData_keyInfo_t
  | 0, i, keyInfo => (i, keyInfo)
  | fuel + 1, i, keyInfo =>
    if (i : Int) < count then
      if key = (cache.read i).key then (i, (cache.read i).keyInfo)
      else scanLoop cache count key fuel (i + 1) keyInfo
    else (i, keyInfo)

/-- `SMCGetKeyInfo(conn, key, keyInfo)`: returns the status, the final
contents of `*keyInfo` (given its contents at entry) and the new state. -/
def SMCGetKeyInfo {σ : Type} (io : Transport σ) (s : State σ) (conn : Nat) (key : Nat)
    (keyInfo : SMCKeyData_keyInfo_t) : Int × SMCKeyData_keyInfo_t × State σ :=
  let sc := scanLoop s.g_keyInfoCache s.g_keyInfoCacheCount key
    s.g_keyInfoCacheCount.toNat 0 keyInfo
  if (sc.1 : Int) = s.g_keyInfoCacheCount then
    let inputStructure : SMCKeyData_t :=
      { zeroKeyData with key := key, data8 := SMC_CMD_READ_KEYINFO }
    let c := SMCCall io s conn KERNEL_INDEX_SMC inputStructure zeroKeyData
    if c.1 = kIOReturnSuccess then
      if c.2.2.g_keyInfoCacheCount < (KEY_INFO_CACHE_SIZE : Int) then
        (c.1, c.2.1.keyInfo,
          { c.2.2 with
            g_keyInfoCache := c.2.2.g_keyInfoCache.write c.2.2.g_keyInfoCacheCount.toNat
              ⟨key, c.2.1.keyInfo⟩
            g_keyInfoCacheCount := c.2.2.g_keyInfoCacheCount + 1 })
      else (c.1, c.2.1.keyInfo, c.2.2)
    else (c.1, sc.2, c.2.2)
  else (kIOReturnSuccess, sc.2, s)

/-- `SMCReadKey(conn, key, val)`: returns the status, the final contents of
`*val` and the new state. -/
def SMCReadKey {σ : Type} (io : Transport σ) (s : State σ) (conn : Nat) (key : List Nat) :
    Int × SMCVal_t × State σ :=
  let inputStructure0 : SMCKeyData_t := { zeroKeyData with key := _strtoul key 4 16 }
  let val0 : SMCVal_t := { zeroVal with key := key }
  let g := SMCGetKeyInfo io s conn inputStructure0.key zeroKeyData.keyInfo
  if g.1 ≠ kIOReturnSuccess then (g.1, val0, g.2.2)
  else
    let outputStructure : SMCKeyData_t := { zeroKeyData with keyInfo := g.2.1 }
    let val1 : SMCVal_t :=
      { val0 with
        dataSize := outputStructure.keyInfo.dataSize
        dataType := _ultostr val0.dataType outputStructure.keyInfo.dataType }
    let inputStructure : SMCKeyData_t :=
      { inputStructure0 with
        keyInfo := { inputStructure0.keyInfo with dataSize := val1.dataSize }
        data8 := SMC_CMD_READ_BYTES }
    let c := SMCCall io g.2.2 conn KERNEL_INDEX_SMC inputStructure outputStructure
    if c.1 ≠ kIOReturnSuccess then (c.1, val1, c.2.2)
    else (kIOReturnSuccess, { val1 with bytes := c.2.1.bytes }, c.2.2)

/-- `SMCWriteKeyUnsafe(conn, val)`: returns the status and the new state. -/
def SMCWriteKeyUnsafe {σ : Type} (io : Transport σ) (s : State σ) (conn : Nat)
    (val : SMCVal_t) : Int × State σ :=
  let inputStructure : SMCKeyData_t :=
    { zeroKeyData with
      key := _strtoul val.key 4 16
      data8 := SMC_CMD_WRITE_BYTES
      keyInfo := { zeroKeyData.keyInfo with dataSize := val.dataSize }
      bytes := val.bytes }
  let c := SMCCall io s conn KERNEL_INDEX_SMC inputStructure zeroKeyData
  if c.1 ≠ kIOReturnSuccess then (c.1, c.2.2) else (kIOReturnSuccess, c.2.2)

/-- `SMCWriteKey(conn, val)`: returns the status and the new state. -/
def SMCWriteKey {σ : Type} (io : Transport σ) (s : State σ) (conn : Nat) (val : SMCVal_t) :
    Int × State σ :=
  let r := SMCReadKey io s conn val.key
  if r.1 ≠ kIOReturnSuccess then (r.1, r.2.2)
  else if r.2.1.dataSize ≠ val.dataSize then (kIOReturnError, r.2.2)
  else SMCWriteKeyUnsafe io r.2.2 conn val

/-- The number of logged transport calls whose sub-command is `cmd`. -/
def callCount (cmd : Nat) (calls : List SMCKeyData_t) : Nat :=
  (calls.filter (fun r => r.data8 = cmd)).length

/-- One call of the public interface. -/
inductive Op where
  | getKeyInfo (conn key : Nat) (keyInfo : SMCKeyData_keyInfo_t)
  | readKey (conn : Nat) (key : List Nat)
  | writeKey (conn : Nat) (val : SMCVal_t)
  | writeKeyUnsafe (conn : Nat) (val : SMCVal_t)

/-- The state after one call of the public interface. -/
def step {σ : Type} (io : Transport σ) (s : State σ) : Op → State σ
  | .getKeyInfo conn key keyInfo => (SMCGetKeyInfo io s conn key keyInfo).2.2
  | .readKey conn key => (SMCReadKey io s conn key).2.2
  | .writeKey conn val => (SMCWriteKey io s conn val).2
  | .writeKeyUnsafe conn val => (SMCWriteKeyUnsafe io s conn val).2

/-- The state after a sequence of calls, in order. -/
def run {σ : Type} (io : Transport σ) (s : State σ) (ops : List Op) : State σ :=
  ops.foldl (step io) s

/-! ## Sample transports -/

/-- A controller that knows every key as a 2-byte `sp78` value reading
`[0x20, 0x00]`, and accepts every write. -/
def sampleTransport : Transport Unit := fun w _ _ inp out =>
  if inp.data8 = SMC_CMD_READ_KEYINFO then
    (kIOReturnSuccess,
      { out with keyInfo := { dataSize := 2, dataType := 0x73703738, dataAttributes := 0 } }, w)
  else if inp.data8 = SMC_CMD_READ_BYTES then
    (kIOReturnSuccess, { out with bytes := [0x20, 0x00] ++ List.replicate 30 0 }, w)
  else (kIOReturnSuccess, out, w)

/-- A transport whose every call fails with `kIOReturnError`. -/
def failingTransport : Transport Unit := fun w _ _ _ out => (kIOReturnError, out, w)

/-- A controller whose answer to "read key info" changes from call to call:
the world counts the calls and the reported `dataSize` is that count. -/
def countingTransport : Transport Nat := fun w _ _ _ out =>
  (kIOReturnSuccess, { out with keyInfo := { zeroKeyInfo with dataSize := w } }, w + 1)

/-- A transport that answers "read key info" but fails every other call. -/
def infoOnlyTransport : Transport Unit := fun w _ _ inp out =>
  if inp.data8 = SMC_CMD_READ_KEYINFO then
    (kIOReturnSuccess,
      { out with keyInfo := { dataSize := 2, dataType := 0x73703738, dataAttributes := 0 } }, w)
  else (kIOReturnError, out, w)

/-- The key text `"TC0P"` with its terminator. -/
def keyTC0P : List Nat := [0x54, 0x43, 0x30, 0x50, 0]

/-- A cache holding `KEY_INFO_CACHE_SIZE` entries, for the keys `1..100`. -/
def fullCache : KeyInfoCache :=
  ⟨(List.range KEY_INFO_CACHE_SIZE).map (fun i => ⟨i + 1, zeroKeyInfo⟩), by simp⟩

/-- A state whose cache is at capacity and does not hold key `0`. -/
def fullState {σ : Type} (w : σ) : State σ :=
  { g_keyInfoCache := fullCache, g_keyInfoCacheCount := 100, world := w, calls := [] }

/-! ## Auxiliary notions used in the statements -/

/-- The key is held by one of the first `count` cache entries. -/
def cached (c : KeyInfoCache) (count : Int) (key : Nat) : Prop :=
  ∃ i : Nat, (i : Int) < count ∧ key = (c.read i).key

/-- The request record `SMCGetKeyInfo` sends on a miss. -/
def keyInfoRequest (key : Nat) : SMCKeyData_t :=
  { zeroKeyData with key := key, data8 := SMC_CMD_READ_KEYINFO }

/-- The bounds on the entry count. -/
def CountInBounds {σ : Type} (s : State σ) : Prop :=
  0 ≤ s.g_keyInfoCacheCount ∧ s.g_keyInfoCacheCount ≤ (KEY_INFO_CACHE_SIZE : Int)

/-- The request record `SMCReadKey` sends for "read bytes": the packed key,
the resolved `dataSize`, the sub-command, zero elsewhere. -/
def readRequest (key : List Nat) (dataSize : Nat) : SMCKeyData_t :=
  { key := _strtoul key 4 16
    keyInfo := { dataSize := dataSize, dataType := 0, dataAttributes := 0 }
    data8 := SMC_CMD_READ_BYTES
    bytes := List.replicate 32 0
    others := 0 }

/-- The request record `SMCWriteKeyUnsafe` sends for "write bytes". -/
def writeRequest (val : SMCVal_t) : SMCKeyData_t :=
  { key := _strtoul val.key 4 16
    keyInfo := { dataSize := val.dataSize, dataType := 0, dataAttributes := 0 }
    data8 := SMC_CMD_WRITE_BYTES
    bytes := val.bytes
    others := 0 }

/-- A 1-byte payload for `"TC0P"`. -/
def oneByteTC0P : SMCVal_t :=
  { key := keyTC0P, dataSize := 1, dataType := [0x73, 0x70, 0x37, 0x38, 0],
    bytes := [0x2a] ++ List.replicate 31 0 }

/-- A 2-byte payload for `"TC0P"`. -/
def twoByteTC0P : SMCVal_t :=
  { key := keyTC0P, dataSize := 2, dataType := [0x73, 0x70, 0x37, 0x38, 0],
    bytes := [0x2a, 0x80] ++ List.replicate 30 0 }

/-- The metadata lookup `SMCReadKey` performs: `SMCGetKeyInfo` on the packed
key, with the zeroed `outputStructure.keyInfo` as buffer. -/
def readKeyInfo {σ : Type} (io : Transport σ) (s : State σ) (conn : Nat) (key : List Nat) :
    Int × SMCKeyData_keyInfo_t × State σ :=
  SMCGetKeyInfo io s conn (_strtoul key 4 16) zeroKeyInfo

/-- The transport's answer to the "read bytes" request of `SMCReadKey`,
issued after the metadata lookup: status, response record, new world. -/
def readBytesAnswer {σ : Type} (io : Transport σ) (s : State σ) (conn : Nat) (key : List Nat) :
    Int × SMCKeyData_t × σ :=
  io (readKeyInfo io s conn key).2.2.world conn KERNEL_INDEX_SMC
    (readRequest key (readKeyInfo io s conn key).2.1.dataSize)
    { zeroKeyData with keyInfo := (readKeyInfo io s conn key).2.1 }

/-- The state after one successful lookup of `"TC0P"` from program start. -/
def warmState : State Unit :=
  (SMCGetKeyInfo sampleTransport (State.init ()) 0 0x54433050 zeroKeyInfo).2.2

/-- What one call of the interface may do to the cache: nothing, or append
at index `count` the key of a miss with the metadata the transport returned
with success, while `count < KEY_INFO_CACHE_SIZE`. -/
def CacheStep {σ : Type} (io : Transport σ) (s t : State σ) : Prop :=
  (t.g_keyInfoCache = s.g_keyInfoCache ∧ t.g_keyInfoCacheCount = s.g_keyInfoCacheCount) ∨
  ∃ conn key : Nat,
    0 ≤ s.g_keyInfoCacheCount ∧ s.g_keyInfoCacheCount < (KEY_INFO_CACHE_SIZE : Int) ∧
    ¬ cached s.g_keyInfoCache s.g_keyInfoCacheCount key ∧
    (io s.world conn KERNEL_INDEX_SMC (keyInfoRequest key) zeroKeyData).1 = kIOReturnSuccess ∧
    t.g_keyInfoCache = s.g_keyInfoCache.write s.g_keyInfoCacheCount.toNat
      ⟨key, (io s.world conn KERNEL_INDEX_SMC (keyInfoRequest key) zeroKeyData).2.1.keyInfo⟩ ∧
    t.g_keyInfoCacheCount = s.g_keyInfoCacheCount + 1

/-- No two of the first `g_keyInfoCacheCount` entries hold the same key. -/
def DistinctKeys {σ : Type} (s : State σ) : Prop :=
  ∀ i j : Nat, (i : Int) < s.g_keyInfoCacheCount → (j : Int) < s.g_keyInfoCacheCount →
    (s.g_keyInfoCache.read i).key = (s.g_keyInfoCache.read j).key → i = j

/-- Every one of the first `g_keyInfoCacheCount` entries holds, for its key,
the metadata `info` assigns to that key. -/
def CacheSound {σ : Type} (info : Nat → SMCKeyData_keyInfo_t) (s : State σ) : Prop :=
  ∀ i : Nat, (i : Int) < s.g_keyInfoCacheCount →
    (s.g_keyInfoCache.read i).keyInfo = info (s.g_keyInfoCache.read i).key

/-- The metadata lookup without a cache, as the spec words it for a miss:
build the "read key info" request, invoke the transport, on success return
the metadata of the response, on failure propagate the status.  It always
calls the transport and never touches the cache. -/
def getKeyMetadataNoCache {σ : Type} (io : Transport σ) (s : State σ) (conn key : Nat)
    (keyInfo : SMCKeyData_keyInfo_t) : Int × SMCKeyData_keyInfo_t × State σ :=
  let c := SMCCall io s conn KERNEL_INDEX_SMC (keyInfoRequest key) zeroKeyData
  if c.1 = kIOReturnSuccess then (c.1, c.2.1.keyInfo, c.2.2) else (c.1, keyInfo, c.2.2)

/-- The metadata `sampleTransport` reports for every key: 2 bytes, `sp78`. -/
def sampleInfo : Nat → SMCKeyData_keyInfo_t :=
  fun _ => { dataSize := 2, dataType := 0x73703738, dataAttributes := 0 }

/-- A controller that answers both reads like `sampleTransport` but
rejects every write with `kIOReturnError`. -/
def readOnlyTransport : Transport Unit := fun w _ _ inp out =>
  if inp.data8 = SMC_CMD_READ_KEYINFO then
    (kIOReturnSuccess,
      { out with keyInfo := { dataSize := 2, dataType := 0x73703738, dataAttributes := 0 } }, w)
  else if inp.data8 = SMC_CMD_READ_BYTES then
    (kIOReturnSuccess, { out with bytes := [0x20, 0x00] ++ List.replicate 30 0 }, w)
  else (kIOReturnError, out, w)

/-! ## Codec lemmas -/

theorem strtoul_four_hex_unfold (b0 b1 b2 b3 : Nat) (rest : List Nat) :
    _strtoul (b0 :: b1 :: b2 :: b3 :: rest) 4 16 =
      toUInt32 ((toUInt32 ((toUInt32 ((toUInt32 (0 + wrapInt32 (charToInt b0 * 2 ^ 24)) : Nat)
        + wrapInt32 (charToInt b1 * 2 ^ 16)) : Nat)
        + wrapInt32 (charToInt b2 * 2 ^ 8)) : Nat)
        + wrapInt32 (charToInt b3 * 2 ^ 0)) := by
  simp [_strtoul, strtoulLoop, shiftedChar]

theorem charToInt_ascii (b : Nat) (h : b < 128) : charToInt b = (b : Int) := by
  unfold charToInt
  have : b % 256 = b := Nat.mod_eq_of_lt (by omega)
  rw [this]
  simp [h]

theorem toUInt32_add_left (a b : Int) :
    toUInt32 ((toUInt32 a : Int) + b) = toUInt32 (a + b) := by
  unfold toUInt32
  have e2 : (2 : Int) ^ 32 = 4294967296 := by norm_num
  rw [e2]
  omega

theorem toUInt32_wrap_right (a x : Int) :
    toUInt32 (a + wrapInt32 x) = toUInt32 (a + x) := by
  unfold toUInt32 wrapInt32
  have e1 : (2 : Int) ^ 31 = 2147483648 := by norm_num
  have e2 : (2 : Int) ^ 32 = 4294967296 := by norm_num
  rw [e1, e2]
  omega

theorem strtoul_four_hex (b0 b1 b2 b3 : Nat) (rest : List Nat) :
    _strtoul (b0 :: b1 :: b2 :: b3 :: rest) 4 16 =
      toUInt32 (charToInt b0 * 16777216 + charToInt b1 * 65536 + charToInt b2 * 256
        + charToInt b3) := by
  rw [strtoul_four_hex_unfold]
  simp only [toUInt32_add_left, toUInt32_wrap_right]
  norm_num

theorem strtoul_four_hex_ascii (b0 b1 b2 b3 : Nat) (rest : List Nat)
    (h0 : b0 < 128) (h1 : b1 < 128) (h2 : b2 < 128) (h3 : b3 < 128) :
    _strtoul (b0 :: b1 :: b2 :: b3 :: rest) 4 16 = bigEndian b0 b1 b2 b3 := by
  rw [strtoul_four_hex, charToInt_ascii b0 h0, charToInt_ascii b1 h1,
    charToInt_ascii b2 h2, charToInt_ascii b3 h3]
  unfold toUInt32 bigEndian
  have e2 : (2 : Int) ^ 32 = 4294967296 := by norm_num
  rw [e2]
  have p24 : (2 : Nat) ^ 24 = 16777216 := by norm_num
  have p16 : (2 : Nat) ^ 16 = 65536 := by norm_num
  have p8 : (2 : Nat) ^ 8 = 256 := by norm_num
  rw [p24, p16, p8]
  omega

theorem ultostr_bigEndian (b0 b1 b2 b3 : Nat) (buf : List Nat)
    (h0 : b0 < 256) (h1 : b1 < 256) (h2 : b2 < 256) (h3 : b3 < 256) :
    _ultostr buf (bigEndian b0 b1 b2 b3) = [b0, b1, b2, b3, 0] ++ buf.drop 5 := by
  unfold _ultostr bigEndian
  simp only [Nat.shiftRight_eq_div_pow]
  have p32 : (2 : Nat) ^ 32 = 4294967296 := by norm_num
  have p24 : (2 : Nat) ^ 24 = 16777216 := by norm_num
  have p16 : (2 : Nat) ^ 16 = 65536 := by norm_num
  have p8 : (2 : Nat) ^ 8 = 256 := by norm_num
  rw [p32, p24, p16, p8]
  have e0 : (b0 * 16777216 + b1 * 65536 + b2 * 256 + b3) % 4294967296 / 16777216 % 256 = b0 := by
    omega
  have e1 : (b0 * 16777216 + b1 * 65536 + b2 * 256 + b3) % 4294967296 / 65536 % 256 = b1 := by
    omega
  have e2 : (b0 * 16777216 + b1 * 65536 + b2 * 256 + b3) % 4294967296 / 256 % 256 = b2 := by
    omega
  have e3 : (b0 * 16777216 + b1 * 65536 + b2 * 256 + b3) % 4294967296 % 256 = b3 := by
    omega
  rw [e0, e1, e2, e3]

/-- C1: for every 4-character ASCII string (bytes `0..127`, whatever follows
the four characters in the array), `_ultostr` applied to
`_strtoul(s, 4, 16)` writes exactly the four characters of `s` followed by
a NUL terminator, leaving the cells after the terminator untouched. -/
theorem ultostr_strtoul_roundtrip (b0 b1 b2 b3 : Nat) (rest buf : List Nat)
    (h0 : b0 < 128) (h1 : b1 < 128) (h2 : b2 < 128) (h3 : b3 < 128) :
    _ultostr buf (_strtoul (b0 :: b1 :: b2 :: b3 :: rest) 4 16)
      = [b0, b1, b2, b3, 0] ++ buf.drop 5 := by
  rw [strtoul_four_hex_ascii b0 b1 b2 b3 rest h0 h1 h2 h3]
  exact ultostr_bigEndian b0 b1 b2 b3 buf (by omega) (by omega) (by omega) (by omega)

theorem ultostr_strtoul_roundtrip_witness :
    (0x54 < 128 ∧ 0x43 < 128 ∧ 0x30 < 128 ∧ 0x50 < 128) ∧
    _ultostr [0, 0, 0, 0, 0] (_strtoul [0x54, 0x43, 0x30, 0x50, 0] 4 16)
      = [0x54, 0x43, 0x30, 0x50, 0] ++ ([0, 0, 0, 0, 0] : List Nat).drop 5 :=
  ⟨by decide, ultostr_strtoul_roundtrip 0x54 0x43 0x30 0x50 [0] [0, 0, 0, 0, 0]
    (by decide) (by decide) (by decide) (by decide)⟩

/-- C2: at the key bytes `41 80 00 00` the code does not return the
big-endian packing: the byte `0x80` is read as the signed `char` value
`-128`, so `_strtoul(str, 4, 16)` yields `0x40800000`, whereas the packing
of the raw unsigned bytes is `0x41800000`. -/
theorem strtoul_non_ascii_sign_extends :
    _strtoul [0x41, 0x80, 0x00, 0x00] 4 16 = 0x40800000 ∧
    bigEndian 0x41 0x80 0x00 0x00 = 0x41800000 := by
  decide

/-- C3: at the 32-bit value `0x00000080` the codec is not lossless:
`_ultostr` writes the bytes `00 00 00 80`, and `_strtoul` of those bytes is
`0xFFFFFF80`, not `0x00000080`. -/
theorem strtoul_ultostr_not_inverse :
    _ultostr [0, 0, 0, 0, 0] 0x80 = [0, 0, 0, 0x80, 0] ∧
    _strtoul (_ultostr [0, 0, 0, 0, 0] 0x80) 4 16 = 0xFFFFFF80 := by
  decide

/-! ## The cache scan -/

theorem scanLoop_miss (c : KeyInfoCache) (count : Int) (key : Nat) (ki : SMCKeyData_keyInfo_t) :
    ∀ (fuel i : Nat), (i : Int) ≤ count → count ≤ (i : Int) + fuel →
      (∀ j : Nat, i ≤ j → (j : Int) < count → key ≠ (c.read j).key) →
      scanLoop c count key fuel i ki = (count.toNat, ki) := by
  intro fuel
  induction fuel with
  | zero =>
    intro i h1 h2 _
    have : count.toNat = i := by omega
    simp [scanLoop, this]
  | succ n ih =>
    intro i h1 h2 hno
    unfold scanLoop
    by_cases hlt : (i : Int) < count
    · have hk : key ≠ (c.read i).key := hno i (Nat.le_refl i) hlt
      rw [if_pos hlt, if_neg hk]
      apply ih (i + 1)
      · push_cast; omega
      · push_cast; omega
      · intro j hj hjc
        exact hno j (by omega) hjc
    · rw [if_neg hlt]
      have : count.toNat = i := by omega
      rw [this]

theorem scanLoop_hit (c : KeyInfoCache) (count : Int) (key : Nat) (ki : SMCKeyData_keyInfo_t)
    (j0 : Nat) (hj0 : (j0 : Int) < count) (hkey : key = (c.read j0).key) :
    ∀ (fuel i : Nat), i ≤ j0 → count ≤ (i : Int) + fuel →
      (∀ j : Nat, i ≤ j → j < j0 → key ≠ (c.read j).key) →
      scanLoop c count key fuel i ki = (j0, (c.read j0).keyInfo) := by
  intro fuel
  induction fuel with
  | zero =>
    intro i h1 h2 _
    omega
  | succ n ih =>
    intro i h1 h2 hno
    unfold scanLoop
    have hlt : (i : Int) < count := by omega
    rw [if_pos hlt]
    by_cases hij : i = j0
    · subst hij
      rw [if_pos hkey]
    · have hk : key ≠ (c.read i).key := hno i (Nat.le_refl i) (by omega)
      rw [if_neg hk]
      apply ih (i + 1)
      · omega
      · push_cast; omega
      · intro j hj hjc
        exact hno j (by omega) hjc

/-- A cached key has a first entry holding it. -/
theorem cached_first (c : KeyInfoCache) (count : Int) (key : Nat) (h : cached c count key) :
    ∃ j0 : Nat, (j0 : Int) < count ∧ key = (c.read j0).key ∧
      ∀ j : Nat, j < j0 → key ≠ (c.read j).key := by
  classical
  refine ⟨Nat.find h, (Nat.find_spec h).1, (Nat.find_spec h).2, ?_⟩
  intro j hj hk
  have hlt : (j : Int) < count := by
    have := (Nat.find_spec h).1
    omega
  exact Nat.find_min h hj ⟨hlt, hk⟩

/-! ## `SMCGetKeyInfo` case by case -/

theorem getKeyInfo_hit {σ : Type} (io : Transport σ) (s : State σ) (conn key : Nat)
    (ki : SMCKeyData_keyInfo_t) (j0 : Nat) (hj0 : (j0 : Int) < s.g_keyInfoCacheCount)
    (hkey : key = (s.g_keyInfoCache.read j0).key)
    (hfirst : ∀ j : Nat, j < j0 → key ≠ (s.g_keyInfoCache.read j).key) :
    SMCGetKeyInfo io s conn key ki
      = (kIOReturnSuccess, (s.g_keyInfoCache.read j0).keyInfo, s) := by
  have hs := scanLoop_hit s.g_keyInfoCache s.g_keyInfoCacheCount key ki j0 hj0 hkey
    s.g_keyInfoCacheCount.toNat 0 (Nat.zero_le _) (by omega) (fun j _ hj => hfirst j hj)
  unfold SMCGetKeyInfo
  simp only [hs]
  have hne : ¬ ((j0 : Int) = s.g_keyInfoCacheCount) := by omega
  rw [if_neg hne]

theorem getKeyInfo_negative {σ : Type} (io : Transport σ) (s : State σ) (conn key : Nat)
    (ki : SMCKeyData_keyInfo_t) (hneg : s.g_keyInfoCacheCount < 0) :
    SMCGetKeyInfo io s conn key ki = (kIOReturnSuccess, ki, s) := by
  have h0 : s.g_keyInfoCacheCount.toNat = 0 := by omega
  unfold SMCGetKeyInfo
  simp only [h0, scanLoop]
  have hne : ¬ (((0 : Nat) : Int) = s.g_keyInfoCacheCount) := by omega
  rw [if_neg hne]

theorem getKeyInfo_miss {σ : Type} (io : Transport σ) (s : State σ) (conn key : Nat)
    (ki : SMCKeyData_keyInfo_t) (hpos : 0 ≤ s.g_keyInfoCacheCount)
    (hmiss : ¬ cached s.g_keyInfoCache s.g_keyInfoCacheCount key) :
    SMCGetKeyInfo io s conn key ki =
      if (SMCCall io s conn KERNEL_INDEX_SMC (keyInfoRequest key) zeroKeyData).1
          = kIOReturnSuccess then
        if s.g_keyInfoCacheCount < (KEY_INFO_CACHE_SIZE : Int) then
          (kIOReturnSuccess,
            (SMCCall io s conn KERNEL_INDEX_SMC (keyInfoRequest key) zeroKeyData).2.1.keyInfo,
            { (SMCCall io s conn KERNEL_INDEX_SMC (keyInfoRequest key) zeroKeyData).2.2 with
              g_keyInfoCache := s.g_keyInfoCache.write s.g_keyInfoCacheCount.toNat
                ⟨key,
                  (SMCCall io s conn KERNEL_INDEX_SMC (keyInfoRequest key)
                    zeroKeyData).2.1.keyInfo⟩
              g_keyInfoCacheCount := s.g_keyInfoCacheCount + 1 })
        else
          (kIOReturnSuccess,
            (SMCCall io s conn KERNEL_INDEX_SMC (keyInfoRequest key) zeroKeyData).2.1.keyInfo,
            (SMCCall io s conn KERNEL_INDEX_SMC (keyInfoRequest key) zeroKeyData).2.2)
      else
        ((SMCCall io s conn KERNEL_INDEX_SMC (keyInfoRequest key) zeroKeyData).1, ki,
          (SMCCall io s conn KERNEL_INDEX_SMC (keyInfoRequest key) zeroKeyData).2.2) := by
  have hs := scanLoop_miss s.g_keyInfoCache s.g_keyInfoCacheCount key ki
    s.g_keyInfoCacheCount.toNat 0 (by omega) (by omega)
    (fun j _ hj hk => hmiss ⟨j, hj, hk⟩)
  unfold SMCGetKeyInfo
  simp only [hs]
  have he : ((s.g_keyInfoCacheCount.toNat : Nat) : Int) = s.g_keyInfoCacheCount := by omega
  rw [if_pos he]
  unfold keyInfoRequest
  by_cases hc : (SMCCall io s conn KERNEL_INDEX_SMC
      { zeroKeyData with key := key, data8 := SMC_CMD_READ_KEYINFO } zeroKeyData).1
        = kIOReturnSuccess
  · simp only [hc, if_true]
    rfl
  · simp only [hc, if_false]

theorem KeyInfoCache.read_write_same (c : KeyInfoCache) (n : Nat) (e : CacheEntry)
    (hn : n < KEY_INFO_CACHE_SIZE) : (c.write n e).read n = e := by
  have hlen : n < c.slots.length := by rw [c.size_eq]; exact hn
  simp [KeyInfoCache.read, KeyInfoCache.write, List.getD_eq_getElem?_getD, hlen]

theorem KeyInfoCache.read_write_other (c : KeyInfoCache) (n j : Nat) (e : CacheEntry)
    (hj : j ≠ n) : (c.write n e).read j = c.read j := by
  simp [KeyInfoCache.read, KeyInfoCache.write, List.getD_eq_getElem?_getD,
    List.getElem?_set_ne (Ne.symm hj)]

theorem callCount_append_one (cmd : Nat) (l : List SMCKeyData_t) (r : SMCKeyData_t) :
    callCount cmd (l ++ [r]) = callCount cmd l + (if r.data8 = cmd then 1 else 0) := by
  unfold callCount
  rw [List.filter_append, List.length_append]
  by_cases h : r.data8 = cmd <;> simp [List.filter, h]

theorem SMCCall_calls {σ : Type} (io : Transport σ) (s : State σ) (conn : Nat) (index : Int)
    (inp out : SMCKeyData_t) :
    (SMCCall io s conn index inp out).2.2.calls = s.calls ++ [inp] := rfl

theorem SMCCall_cache {σ : Type} (io : Transport σ) (s : State σ) (conn : Nat) (index : Int)
    (inp out : SMCKeyData_t) :
    (SMCCall io s conn index inp out).2.2.g_keyInfoCache = s.g_keyInfoCache ∧
    (SMCCall io s conn index inp out).2.2.g_keyInfoCacheCount = s.g_keyInfoCacheCount :=
  ⟨rfl, rfl⟩

/-! ## C4: two lookups in a row -/

/-- C4 (as amended): if the key is already cached, or the cache has room
(`0 <= count < 100`), and a `SMCGetKeyInfo` call returns success, then a
second call with the same key, whatever the caller's buffer holds, returns
success with the metadata of the first call and leaves the whole state,
transport log included, as the first call left it (a cache hit); the two
calls together log at most one "read key info" transport call. -/
theorem getKeyInfo_twice_hits {σ : Type} (io : Transport σ) (s : State σ) (conn key : Nat)
    (ki ki2 : SMCKeyData_keyInfo_t)
    (hroom : cached s.g_keyInfoCache s.g_keyInfoCacheCount key ∨
      (0 ≤ s.g_keyInfoCacheCount ∧ s.g_keyInfoCacheCount < (KEY_INFO_CACHE_SIZE : Int)))
    (hok : (SMCGetKeyInfo io s conn key ki).1 = kIOReturnSuccess) :
    SMCGetKeyInfo io (SMCGetKeyInfo io s conn key ki).2.2 conn key ki2
      = (kIOReturnSuccess, (SMCGetKeyInfo io s conn key ki).2.1,
          (SMCGetKeyInfo io s conn key ki).2.2) ∧
    callCount SMC_CMD_READ_KEYINFO (SMCGetKeyInfo io s conn key ki).2.2.calls
      ≤ callCount SMC_CMD_READ_KEYINFO s.calls + 1 := by
  by_cases hc : cached s.g_keyInfoCache s.g_keyInfoCacheCount key
  · obtain ⟨j0, hj0, hkey, hfirst⟩ := cached_first _ _ _ hc
    rw [getKeyInfo_hit io s conn key ki j0 hj0 hkey hfirst]
    refine ⟨getKeyInfo_hit io s conn key ki2 j0 hj0 hkey hfirst, Nat.le_succ _⟩
  · have hr : 0 ≤ s.g_keyInfoCacheCount ∧ s.g_keyInfoCacheCount < (KEY_INFO_CACHE_SIZE : Int) := by
      rcases hroom with h | h
      · exact absurd h hc
      · exact h
    have hm := getKeyInfo_miss io s conn key ki hr.1 hc
    rw [hm] at hok ⊢
    by_cases hcall : (SMCCall io s conn KERNEL_INDEX_SMC (keyInfoRequest key) zeroKeyData).1
        = kIOReturnSuccess
    · rw [if_pos hcall, if_pos hr.2]
      have hn : s.g_keyInfoCacheCount.toNat < KEY_INFO_CACHE_SIZE := by
        have := hr.2
        omega
      constructor
      · have hh := getKeyInfo_hit io
          { (SMCCall io s conn KERNEL_INDEX_SMC (keyInfoRequest key) zeroKeyData).2.2 with
            g_keyInfoCache := s.g_keyInfoCache.write s.g_keyInfoCacheCount.toNat
              ⟨key, (SMCCall io s conn KERNEL_INDEX_SMC (keyInfoRequest key)
                zeroKeyData).2.1.keyInfo⟩
            g_keyInfoCacheCount := s.g_keyInfoCacheCount + 1 }
          conn key ki2 s.g_keyInfoCacheCount.toNat
          (by show ((s.g_keyInfoCacheCount.toNat : Nat) : Int) < s.g_keyInfoCacheCount + 1
              omega)
          (by show key = ((s.g_keyInfoCache.write s.g_keyInfoCacheCount.toNat _).read
                s.g_keyInfoCacheCount.toNat).key
              rw [KeyInfoCache.read_write_same _ _ _ hn])
          (by intro j hj
              show key ≠ ((s.g_keyInfoCache.write s.g_keyInfoCacheCount.toNat _).read j).key
              rw [KeyInfoCache.read_write_other _ _ _ _ (by omega)]
              intro hk
              exact hc ⟨j, by omega, hk⟩)
        rw [hh]
        show (kIOReturnSuccess,
          ((s.g_keyInfoCache.write s.g_keyInfoCacheCount.toNat _).read
            s.g_keyInfoCacheCount.toNat).keyInfo, _) = _
        rw [KeyInfoCache.read_write_same _ _ _ hn]
      · show callCount SMC_CMD_READ_KEYINFO (s.calls ++ [keyInfoRequest key]) ≤ _
        rw [callCount_append_one]
        split_ifs <;> omega
    · rw [if_neg hcall] at hok
      exact absurd hok hcall

theorem getKeyInfo_twice_hits_witness :
    (cached (State.init ()).g_keyInfoCache (State.init ()).g_keyInfoCacheCount 0x54433050 ∨
      (0 ≤ (State.init ()).g_keyInfoCacheCount ∧
        (State.init ()).g_keyInfoCacheCount < (KEY_INFO_CACHE_SIZE : Int))) ∧
    (SMCGetKeyInfo sampleTransport (State.init ()) 0 0x54433050 zeroKeyInfo).1
      = kIOReturnSuccess ∧
    (SMCGetKeyInfo sampleTransport
        (SMCGetKeyInfo sampleTransport (State.init ()) 0 0x54433050 zeroKeyInfo).2.2
        0 0x54433050 zeroKeyInfo
      = (kIOReturnSuccess,
          (SMCGetKeyInfo sampleTransport (State.init ()) 0 0x54433050 zeroKeyInfo).2.1,
          (SMCGetKeyInfo sampleTransport (State.init ()) 0 0x54433050 zeroKeyInfo).2.2) ∧
      callCount SMC_CMD_READ_KEYINFO
        (SMCGetKeyInfo sampleTransport (State.init ()) 0 0x54433050 zeroKeyInfo).2.2.calls
        ≤ callCount SMC_CMD_READ_KEYINFO (State.init ()).calls + 1) :=
  ⟨Or.inr (by decide), by decide,
    getKeyInfo_twice_hits sampleTransport (State.init ()) 0 0x54433050 zeroKeyInfo zeroKeyInfo
      (Or.inr (by decide)) (by decide)⟩

/-- C4 (as stated) fails.  With the cache at capacity and the key absent,
two calls in a row both reach the transport and, the controller's answer
having changed, yield different metadata; and when the transport fails,
nothing is cached and the second call reaches the transport again. -/
theorem getKeyInfo_twice_counterexample :
    ((SMCGetKeyInfo countingTransport (fullState 0) 0 0 zeroKeyInfo).2.1.dataSize = 0 ∧
      (SMCGetKeyInfo countingTransport
        (SMCGetKeyInfo countingTransport (fullState 0) 0 0 zeroKeyInfo).2.2
        0 0 zeroKeyInfo).2.1.dataSize = 1 ∧
      callCount SMC_CMD_READ_KEYINFO (fullState 0).calls = 0 ∧
      callCount SMC_CMD_READ_KEYINFO
        (SMCGetKeyInfo countingTransport
          (SMCGetKeyInfo countingTransport (fullState 0) 0 0 zeroKeyInfo).2.2
          0 0 zeroKeyInfo).2.2.calls = 2) ∧
    (callCount SMC_CMD_READ_KEYINFO (State.init ()).calls = 0 ∧
      callCount SMC_CMD_READ_KEYINFO
        (SMCGetKeyInfo failingTransport
          (SMCGetKeyInfo failingTransport (State.init ()) 0 0x54433050 zeroKeyInfo).2.2
          0 0x54433050 zeroKeyInfo).2.2.calls = 2) := by
  decide

/-! ## C5: the entry count stays within the array -/

theorem getKeyInfo_count {σ : Type} (io : Transport σ) (s : State σ) (conn key : Nat)
    (ki : SMCKeyData_keyInfo_t) :
    (SMCGetKeyInfo io s conn key ki).2.2.g_keyInfoCacheCount = s.g_keyInfoCacheCount ∨
    (0 ≤ s.g_keyInfoCacheCount ∧ s.g_keyInfoCacheCount < (KEY_INFO_CACHE_SIZE : Int) ∧
      (SMCGetKeyInfo io s conn key ki).2.2.g_keyInfoCacheCount = s.g_keyInfoCacheCount + 1) := by
  unfold SMCGetKeyInfo
  simp only []
  split_ifs with h1 h2 h3
  · right
    refine ⟨by omega, h3, rfl⟩
  · left; rfl
  · left; rfl
  · left; rfl

theorem readKey_count {σ : Type} (io : Transport σ) (s : State σ) (conn : Nat)
    (key : List Nat) :
    (SMCReadKey io s conn key).2.2.g_keyInfoCacheCount
      = (SMCGetKeyInfo io s conn (_strtoul key 4 16) zeroKeyInfo).2.2.g_keyInfoCacheCount := by
  unfold SMCReadKey
  simp only []
  split_ifs <;> rfl

theorem writeKeyUnsafe_count {σ : Type} (io : Transport σ) (s : State σ) (conn : Nat)
    (val : SMCVal_t) :
    (SMCWriteKeyUnsafe io s conn val).2.g_keyInfoCacheCount = s.g_keyInfoCacheCount := by
  unfold SMCWriteKeyUnsafe
  simp only []
  split_ifs <;> rfl

theorem writeKey_count {σ : Type} (io : Transport σ) (s : State σ) (conn : Nat)
    (val : SMCVal_t) :
    (SMCWriteKey io s conn val).2.g_keyInfoCacheCount
      = (SMCReadKey io s conn val.key).2.2.g_keyInfoCacheCount := by
  unfold SMCWriteKey
  simp only []
  split_ifs
  · rfl
  · rfl
  · exact writeKeyUnsafe_count io _ conn val

theorem getKeyInfo_bounds {σ : Type} (io : Transport σ) (s : State σ) (conn key : Nat)
    (ki : SMCKeyData_keyInfo_t) (h : CountInBounds s) :
    CountInBounds (SMCGetKeyInfo io s conn key ki).2.2 := by
  unfold CountInBounds at h ⊢
  rcases getKeyInfo_count io s conn key ki with e | ⟨h0, h1, e⟩
  · rw [e]; exact h
  · rw [e]; omega

theorem step_count {σ : Type} (io : Transport σ) (s : State σ) (op : Op) :
    ∃ (key : Nat) (ki : SMCKeyData_keyInfo_t) (conn : Nat),
      (step io s op).g_keyInfoCacheCount = s.g_keyInfoCacheCount ∨
      (step io s op).g_keyInfoCacheCount
        = (SMCGetKeyInfo io s conn key ki).2.2.g_keyInfoCacheCount := by
  cases op with
  | getKeyInfo conn key ki => exact ⟨key, ki, conn, Or.inr rfl⟩
  | readKey conn key =>
    exact ⟨_strtoul key 4 16, zeroKeyInfo, conn, Or.inr (readKey_count io s conn key)⟩
  | writeKey conn val =>
    refine ⟨_strtoul val.key 4 16, zeroKeyInfo, conn, Or.inr ?_⟩
    show (SMCWriteKey io s conn val).2.g_keyInfoCacheCount = _
    rw [writeKey_count, readKey_count]
  | writeKeyUnsafe conn val =>
    exact ⟨0, zeroKeyInfo, conn, Or.inl (writeKeyUnsafe_count io s conn val)⟩

theorem step_bounds {σ : Type} (io : Transport σ) (s : State σ) (op : Op)
    (h : CountInBounds s) : CountInBounds (step io s op) := by
  obtain ⟨key, ki, conn, e | e⟩ := step_count io s op
  · unfold CountInBounds at h ⊢
    rw [e]; exact h
  · have hg := getKeyInfo_bounds io s conn key ki h
    unfold CountInBounds at hg ⊢
    rw [e]; exact hg

theorem run_bounds {σ : Type} (io : Transport σ) (ops : List Op) :
    ∀ s : State σ, CountInBounds s → CountInBounds (run io s ops) := by
  induction ops with
  | nil => intro s h; exact h
  | cons op rest ih =>
    intro s h
    exact ih (step io s op) (step_bounds io s op h)

/-- C5: starting from the empty cache, after any sequence of
`SMCGetKeyInfo`, `SMCReadKey`, `SMCWriteKey` and `SMCWriteKeyUnsafe` calls,
with any keys and any transport, the entry count satisfies
`0 <= count <= KEY_INFO_CACHE_SIZE`; hence every index the scan reads
(`i < count`) and the index an insert writes (`count`, when `count < 100`)
lie within the 100-slot array. -/
theorem cache_count_bounded {σ : Type} (io : Transport σ) (w : σ) (ops : List Op) :
    0 ≤ (run io (State.init w) ops).g_keyInfoCacheCount ∧
    (run io (State.init w) ops).g_keyInfoCacheCount ≤ (KEY_INFO_CACHE_SIZE : Int) ∧
    KEY_INFO_CACHE_SIZE = 100 ∧
    (∀ i : Nat, (i : Int) < (run io (State.init w) ops).g_keyInfoCacheCount →
      i < (run io (State.init w) ops).g_keyInfoCache.slots.length) ∧
    ((run io (State.init w) ops).g_keyInfoCacheCount < (KEY_INFO_CACHE_SIZE : Int) →
      (run io (State.init w) ops).g_keyInfoCacheCount.toNat
        < (run io (State.init w) ops).g_keyInfoCache.slots.length) := by
  have hb : CountInBounds (run io (State.init w) ops) :=
    run_bounds io ops (State.init w)
      ⟨show (0 : Int) ≤ 0 by decide, show (0 : Int) ≤ (KEY_INFO_CACHE_SIZE : Int) by decide⟩
  unfold CountInBounds at hb
  have hlen := (run io (State.init w) ops).g_keyInfoCache.size_eq
  refine ⟨hb.1, hb.2, rfl, ?_, ?_⟩
  · intro i hi
    rw [hlen]
    have := hb.2
    omega
  · intro hlt
    rw [hlen]
    omega

/-! ## The transport log of each operation -/

theorem getKeyInfo_calls {σ : Type} (io : Transport σ) (s : State σ) (conn key : Nat)
    (ki : SMCKeyData_keyInfo_t) :
    (SMCGetKeyInfo io s conn key ki).2.2.calls = s.calls ∨
    (SMCGetKeyInfo io s conn key ki).2.2.calls = s.calls ++ [keyInfoRequest key] := by
  unfold SMCGetKeyInfo
  simp only []
  split_ifs
  · right; rfl
  · right; rfl
  · right; rfl
  · left; rfl

theorem getKeyInfo_callCount_other {σ : Type} (io : Transport σ) (s : State σ)
    (conn key : Nat) (ki : SMCKeyData_keyInfo_t) (cmd : Nat) (hcmd : cmd ≠ SMC_CMD_READ_KEYINFO) :
    callCount cmd (SMCGetKeyInfo io s conn key ki).2.2.calls = callCount cmd s.calls := by
  rcases getKeyInfo_calls io s conn key ki with e | e
  · rw [e]
  · rw [e, callCount_append_one]
    have : ¬ ((keyInfoRequest key).data8 = cmd) := fun h => hcmd h.symm
    rw [if_neg this]
    rfl

theorem readKey_calls {σ : Type} (io : Transport σ) (s : State σ) (conn : Nat)
    (key : List Nat) :
    (SMCReadKey io s conn key).2.2.calls
        = (SMCGetKeyInfo io s conn (_strtoul key 4 16) zeroKeyInfo).2.2.calls ∨
    (SMCReadKey io s conn key).2.2.calls
        = (SMCGetKeyInfo io s conn (_strtoul key 4 16) zeroKeyInfo).2.2.calls
          ++ [readRequest key
                (SMCGetKeyInfo io s conn (_strtoul key 4 16) zeroKeyInfo).2.1.dataSize] := by
  unfold SMCReadKey
  simp only []
  split_ifs
  · left; rfl
  · right; rfl
  · right; rfl

theorem readKey_callCount_write {σ : Type} (io : Transport σ) (s : State σ) (conn : Nat)
    (key : List Nat) :
    callCount SMC_CMD_WRITE_BYTES (SMCReadKey io s conn key).2.2.calls
      = callCount SMC_CMD_WRITE_BYTES s.calls := by
  have hg := getKeyInfo_callCount_other io s conn (_strtoul key 4 16) zeroKeyInfo
    SMC_CMD_WRITE_BYTES (by decide)
  rcases readKey_calls io s conn key with e | e
  · rw [e, hg]
  · rw [e, callCount_append_one, hg]
    have : ¬ ((readRequest key
        (SMCGetKeyInfo io s conn (_strtoul key 4 16) zeroKeyInfo).2.1.dataSize).data8
          = SMC_CMD_WRITE_BYTES) := by
      show ¬ (SMC_CMD_READ_BYTES = SMC_CMD_WRITE_BYTES)
      decide
    rw [if_neg this]
    rfl

theorem writeKeyUnsafe_calls {σ : Type} (io : Transport σ) (s : State σ) (conn : Nat)
    (val : SMCVal_t) :
    (SMCWriteKeyUnsafe io s conn val).2.calls = s.calls ++ [writeRequest val] := by
  unfold SMCWriteKeyUnsafe
  simp only []
  split_ifs <;> rfl

/-! ## C6, C7: the checked write -/

/-- C6: whenever the read that `SMCWriteKey` performs for the value's key
succeeds and resolves a `dataSize` different from the value's `dataSize`,
`SMCWriteKey` returns `kIOReturnError`, an error status, stops in the state
the read left, and has logged no "write bytes" transport call. -/
theorem writeKey_size_mismatch {σ : Type} (io : Transport σ) (s : State σ) (conn : Nat)
    (val : SMCVal_t)
    (hread : (SMCReadKey io s conn val.key).1 = kIOReturnSuccess)
    (hsize : (SMCReadKey io s conn val.key).2.1.dataSize ≠ val.dataSize) :
    (SMCWriteKey io s conn val).1 = kIOReturnError ∧
    kIOReturnError ≠ kIOReturnSuccess ∧
    (SMCWriteKey io s conn val).2 = (SMCReadKey io s conn val.key).2.2 ∧
    callCount SMC_CMD_WRITE_BYTES (SMCWriteKey io s conn val).2.calls
      = callCount SMC_CMD_WRITE_BYTES s.calls := by
  have hw : SMCWriteKey io s conn val = (kIOReturnError, (SMCReadKey io s conn val.key).2.2) := by
    unfold SMCWriteKey
    simp only []
    rw [if_neg (not_not.mpr hread), if_pos hsize]
  rw [hw]
  exact ⟨rfl, by decide, rfl, readKey_callCount_write io s conn val.key⟩

theorem writeKey_size_mismatch_witness :
    (SMCReadKey sampleTransport (State.init ()) 0 oneByteTC0P.key).1 = kIOReturnSuccess ∧
    (SMCReadKey sampleTransport (State.init ()) 0 oneByteTC0P.key).2.1.dataSize = 2 ∧
    oneByteTC0P.dataSize = 1 ∧
    ((SMCWriteKey sampleTransport (State.init ()) 0 oneByteTC0P).1 = kIOReturnError ∧
      kIOReturnError ≠ kIOReturnSuccess ∧
      (SMCWriteKey sampleTransport (State.init ()) 0 oneByteTC0P).2
        = (SMCReadKey sampleTransport (State.init ()) 0 oneByteTC0P.key).2.2 ∧
      callCount SMC_CMD_WRITE_BYTES (SMCWriteKey sampleTransport (State.init ()) 0 oneByteTC0P).2.calls
        = callCount SMC_CMD_WRITE_BYTES (State.init ()).calls) :=
  ⟨by decide, by decide, by decide,
    writeKey_size_mismatch sampleTransport (State.init ()) 0 oneByteTC0P (by decide) (by decide)⟩

/-- C7: whenever the read that `SMCWriteKey` performs for the value's key
succeeds and resolves a `dataSize` equal to the value's `dataSize`,
`SMCWriteKey` returns what `SMCWriteKeyUnsafe` returns on that value (run
after the read), and logs exactly one "write bytes" transport call, the
last one, whose request carries the caller's byte buffer and `dataSize`. -/
theorem writeKey_size_match {σ : Type} (io : Transport σ) (s : State σ) (conn : Nat)
    (val : SMCVal_t)
    (hread : (SMCReadKey io s conn val.key).1 = kIOReturnSuccess)
    (hsize : (SMCReadKey io s conn val.key).2.1.dataSize = val.dataSize) :
    SMCWriteKey io s conn val
      = SMCWriteKeyUnsafe io (SMCReadKey io s conn val.key).2.2 conn val ∧
    (SMCWriteKey io s conn val).2.calls
      = (SMCReadKey io s conn val.key).2.2.calls ++ [writeRequest val] ∧
    callCount SMC_CMD_WRITE_BYTES (SMCWriteKey io s conn val).2.calls
      = callCount SMC_CMD_WRITE_BYTES s.calls + 1 ∧
    (writeRequest val).data8 = SMC_CMD_WRITE_BYTES ∧
    (writeRequest val).bytes = val.bytes ∧
    (writeRequest val).keyInfo.dataSize = val.dataSize := by
  have hw : SMCWriteKey io s conn val
      = SMCWriteKeyUnsafe io (SMCReadKey io s conn val.key).2.2 conn val := by
    unfold SMCWriteKey
    simp only []
    rw [if_neg (not_not.mpr hread), if_neg (not_not.mpr hsize)]
  rw [hw, writeKeyUnsafe_calls]
  refine ⟨rfl, rfl, ?_, rfl, rfl, rfl⟩
  rw [callCount_append_one, readKey_callCount_write]
  rfl

theorem writeKey_size_match_witness :
    (SMCReadKey sampleTransport (State.init ()) 0 twoByteTC0P.key).1 = kIOReturnSuccess ∧
    (SMCReadKey sampleTransport (State.init ()) 0 twoByteTC0P.key).2.1.dataSize
      = twoByteTC0P.dataSize ∧
    (SMCWriteKey sampleTransport (State.init ()) 0 twoByteTC0P
      = SMCWriteKeyUnsafe sampleTransport
          (SMCReadKey sampleTransport (State.init ()) 0 twoByteTC0P.key).2.2 0 twoByteTC0P ∧
    (SMCWriteKey sampleTransport (State.init ()) 0 twoByteTC0P).2.calls
      = (SMCReadKey sampleTransport (State.init ()) 0 twoByteTC0P.key).2.2.calls
          ++ [writeRequest twoByteTC0P] ∧
    callCount SMC_CMD_WRITE_BYTES (SMCWriteKey sampleTransport (State.init ()) 0 twoByteTC0P).2.calls
      = callCount SMC_CMD_WRITE_BYTES (State.init ()).calls + 1 ∧
    (writeRequest twoByteTC0P).data8 = SMC_CMD_WRITE_BYTES ∧
    (writeRequest twoByteTC0P).bytes = twoByteTC0P.bytes ∧
    (writeRequest twoByteTC0P).keyInfo.dataSize = twoByteTC0P.dataSize) :=
  ⟨by decide, by decide,
    writeKey_size_match sampleTransport (State.init ()) 0 twoByteTC0P (by decide) (by decide)⟩

/-! ## C8, C10: `SMCReadKey` -/

theorem readKey_eq {σ : Type} (io : Transport σ) (s : State σ) (conn : Nat) (key : List Nat) :
    SMCReadKey io s conn key =
      if (readKeyInfo io s conn key).1 ≠ kIOReturnSuccess then
        ((readKeyInfo io s conn key).1, { zeroVal with key := key },
          (readKeyInfo io s conn key).2.2)
      else if (readBytesAnswer io s conn key).1 ≠ kIOReturnSuccess then
        ((readBytesAnswer io s conn key).1,
          { key := key
            dataSize := (readKeyInfo io s conn key).2.1.dataSize
            dataType := _ultostr (List.replicate 5 0) (readKeyInfo io s conn key).2.1.dataType
            bytes := List.replicate 32 0 },
          { (readKeyInfo io s conn key).2.2 with
            world := (readBytesAnswer io s conn key).2.2
            calls := (readKeyInfo io s conn key).2.2.calls ++
              [readRequest key (readKeyInfo io s conn key).2.1.dataSize] })
      else
        (kIOReturnSuccess,
          { key := key
            dataSize := (readKeyInfo io s conn key).2.1.dataSize
            dataType := _ultostr (List.replicate 5 0) (readKeyInfo io s conn key).2.1.dataType
            bytes := (readBytesAnswer io s conn key).2.1.bytes },
          { (readKeyInfo io s conn key).2.2 with
            world := (readBytesAnswer io s conn key).2.2
            calls := (readKeyInfo io s conn key).2.2.calls ++
              [readRequest key (readKeyInfo io s conn key).2.1.dataSize] }) := rfl

/-- C8: when the metadata lookup of `SMCReadKey` succeeds and the transport
answers the "read bytes" request with success, `SMCReadKey` returns
success with a value holding the caller's key text, the resolved
`dataSize`, `_ultostr` of the resolved type tag, and the byte buffer of the
transport's response; the request logged for that call carries
`_strtoul(key, 4, 16)`, `SMC_CMD_READ_BYTES`, the resolved `dataSize`, and
zero in every other field. -/
theorem readKey_success {σ : Type} (io : Transport σ) (s : State σ) (conn : Nat)
    (key : List Nat)
    (hinfo : (readKeyInfo io s conn key).1 = kIOReturnSuccess)
    (hbytes : (readBytesAnswer io s conn key).1 = kIOReturnSuccess) :
    (SMCReadKey io s conn key).1 = kIOReturnSuccess ∧
    (SMCReadKey io s conn key).2.1 =
      { key := key
        dataSize := (readKeyInfo io s conn key).2.1.dataSize
        dataType := _ultostr (List.replicate 5 0) (readKeyInfo io s conn key).2.1.dataType
        bytes := (readBytesAnswer io s conn key).2.1.bytes } ∧
    (SMCReadKey io s conn key).2.2.calls =
      (readKeyInfo io s conn key).2.2.calls ++
        [readRequest key (readKeyInfo io s conn key).2.1.dataSize] ∧
    readRequest key (readKeyInfo io s conn key).2.1.dataSize =
      { key := _strtoul key 4 16
        keyInfo :=
          { dataSize := (readKeyInfo io s conn key).2.1.dataSize
            dataType := 0
            dataAttributes := 0 }
        data8 := SMC_CMD_READ_BYTES
        bytes := List.replicate 32 0
        others := 0 } := by
  rw [readKey_eq, if_neg (not_not.mpr hinfo), if_neg (not_not.mpr hbytes)]
  exact ⟨rfl, rfl, rfl, rfl⟩

theorem readKey_success_witness :
    (readKeyInfo sampleTransport (State.init ()) 0 keyTC0P).1 = kIOReturnSuccess ∧
    (readBytesAnswer sampleTransport (State.init ()) 0 keyTC0P).1 = kIOReturnSuccess ∧
    (SMCReadKey sampleTransport (State.init ()) 0 keyTC0P).1 = kIOReturnSuccess ∧
    (SMCReadKey sampleTransport (State.init ()) 0 keyTC0P).2.1 =
      { key := keyTC0P, dataSize := 2, dataType := [0x73, 0x70, 0x37, 0x38, 0],
        bytes := [0x20, 0x00] ++ List.replicate 30 0 } ∧
    (SMCReadKey sampleTransport (State.init ()) 0 keyTC0P).2.2.calls =
      [keyInfoRequest 0x54433050, readRequest keyTC0P 2] :=
  ⟨by decide, by decide,
    (readKey_success sampleTransport (State.init ()) 0 keyTC0P (by decide) (by decide)).1,
    by decide, by decide⟩

/-- C10: if the metadata lookup of `SMCReadKey` fails, `SMCReadKey` returns
the lookup's status and stops in the state the lookup left, so that no
"read bytes" call is logged; if the lookup succeeds and the transport
answers the "read bytes" request with a non-success status, `SMCReadKey`
returns exactly that status; and `SMCReadKey` returns success only if both
the lookup and the "read bytes" call returned success. -/
theorem readKey_failure_propagation {σ : Type} (io : Transport σ) (s : State σ) (conn : Nat)
    (key : List Nat) :
    ((readKeyInfo io s conn key).1 ≠ kIOReturnSuccess →
      (SMCReadKey io s conn key).1 = (readKeyInfo io s conn key).1 ∧
      (SMCReadKey io s conn key).2.2 = (readKeyInfo io s conn key).2.2 ∧
      callCount SMC_CMD_READ_BYTES (SMCReadKey io s conn key).2.2.calls
          = callCount SMC_CMD_READ_BYTES s.calls) ∧
    ((readKeyInfo io s conn key).1 = kIOReturnSuccess →
      (readBytesAnswer io s conn key).1 ≠ kIOReturnSuccess →
      (SMCReadKey io s conn key).1 = (readBytesAnswer io s conn key).1) ∧
    ((SMCReadKey io s conn key).1 = kIOReturnSuccess →
      (readKeyInfo io s conn key).1 = kIOReturnSuccess ∧
      (readBytesAnswer io s conn key).1 = kIOReturnSuccess) := by
  refine ⟨?_, ?_, ?_⟩
  · intro hfail
    rw [readKey_eq, if_pos hfail]
    exact ⟨rfl, rfl,
      getKeyInfo_callCount_other io s conn (_strtoul key 4 16) zeroKeyInfo
        SMC_CMD_READ_BYTES (by decide)⟩
  · intro hinfo hbytes
    rw [readKey_eq, if_neg (not_not.mpr hinfo), if_pos hbytes]
  · intro hok
    rw [readKey_eq] at hok
    by_cases hinfo : (readKeyInfo io s conn key).1 = kIOReturnSuccess
    · refine ⟨hinfo, ?_⟩
      by_contra hbytes
      rw [if_neg (not_not.mpr hinfo), if_pos hbytes] at hok
      exact hbytes hok
    · rw [if_pos hinfo] at hok
      exact absurd hok hinfo

theorem readKey_failure_propagation_witness :
    ((readKeyInfo failingTransport (State.init ()) 0 keyTC0P).1 ≠ kIOReturnSuccess ∧
      (SMCReadKey failingTransport (State.init ()) 0 keyTC0P).1
        = (readKeyInfo failingTransport (State.init ()) 0 keyTC0P).1) ∧
    ((readKeyInfo infoOnlyTransport (State.init ()) 0 keyTC0P).1 = kIOReturnSuccess ∧
      (readBytesAnswer infoOnlyTransport (State.init ()) 0 keyTC0P).1 ≠ kIOReturnSuccess ∧
      (SMCReadKey infoOnlyTransport (State.init ()) 0 keyTC0P).1
        = (readBytesAnswer infoOnlyTransport (State.init ()) 0 keyTC0P).1) ∧
    ((SMCReadKey sampleTransport (State.init ()) 0 keyTC0P).1 = kIOReturnSuccess ∧
      (readKeyInfo sampleTransport (State.init ()) 0 keyTC0P).1 = kIOReturnSuccess ∧
      (readBytesAnswer sampleTransport (State.init ()) 0 keyTC0P).1 = kIOReturnSuccess) :=
  ⟨⟨by decide,
      ((readKey_failure_propagation failingTransport (State.init ()) 0 keyTC0P).1
        (by decide)).1⟩,
    ⟨by decide, by decide,
      (readKey_failure_propagation infoOnlyTransport (State.init ()) 0 keyTC0P).2.1
        (by decide) (by decide)⟩,
    ⟨by decide,
      (readKey_failure_propagation sampleTransport (State.init ()) 0 keyTC0P).2.2
        (by decide)⟩⟩

/-! ## C9: a failed metadata fetch -/

/-- C9: in a cache state with a non-negative entry count that does not hold
the key, when the transport answers the "read key info" request with a
non-success status, `SMCGetKeyInfo` returns exactly that status, leaves the
caller's buffer as it was, and leaves the cache array and the entry count
unchanged, so the key is still not cached. -/
theorem getKeyInfo_fetch_failure {σ : Type} (io : Transport σ) (s : State σ) (conn key : Nat)
    (ki : SMCKeyData_keyInfo_t)
    (hpos : 0 ≤ s.g_keyInfoCacheCount)
    (hmiss : ¬ cached s.g_keyInfoCache s.g_keyInfoCacheCount key)
    (hfail : (io s.world conn KERNEL_INDEX_SMC (keyInfoRequest key) zeroKeyData).1
      ≠ kIOReturnSuccess) :
    (SMCGetKeyInfo io s conn key ki).1
      = (io s.world conn KERNEL_INDEX_SMC (keyInfoRequest key) zeroKeyData).1 ∧
    (SMCGetKeyInfo io s conn key ki).2.1 = ki ∧
    (SMCGetKeyInfo io s conn key ki).2.2.g_keyInfoCache = s.g_keyInfoCache ∧
    (SMCGetKeyInfo io s conn key ki).2.2.g_keyInfoCacheCount = s.g_keyInfoCacheCount ∧
    ¬ cached (SMCGetKeyInfo io s conn key ki).2.2.g_keyInfoCache
        (SMCGetKeyInfo io s conn key ki).2.2.g_keyInfoCacheCount key := by
  have hc : ¬ ((SMCCall io s conn KERNEL_INDEX_SMC (keyInfoRequest key) zeroKeyData).1
      = kIOReturnSuccess) := hfail
  rw [getKeyInfo_miss io s conn key ki hpos hmiss, if_neg hc]
  exact ⟨rfl, rfl, rfl, rfl, hmiss⟩

theorem getKeyInfo_fetch_failure_witness :
    (0 ≤ (State.init ()).g_keyInfoCacheCount) ∧
    (¬ cached (State.init ()).g_keyInfoCache (State.init ()).g_keyInfoCacheCount 0x54433050) ∧
    (failingTransport (State.init ()).world 0 KERNEL_INDEX_SMC (keyInfoRequest 0x54433050)
      zeroKeyData).1 ≠ kIOReturnSuccess ∧
    (SMCGetKeyInfo failingTransport (State.init ()) 0 0x54433050 zeroKeyInfo).1 = kIOReturnError ∧
    (SMCGetKeyInfo failingTransport (State.init ()) 0 0x54433050 zeroKeyInfo).2.2.g_keyInfoCacheCount
      = 0 :=
  ⟨by decide, fun ⟨i, hi, _⟩ => absurd hi (by simp [State.init]), by decide,
    (getKeyInfo_fetch_failure failingTransport (State.init ()) 0 0x54433050 zeroKeyInfo
      (by decide) (fun ⟨i, hi, _⟩ => absurd hi (by simp [State.init])) (by decide)).1,
    (getKeyInfo_fetch_failure failingTransport (State.init ()) 0 0x54433050 zeroKeyInfo
      (by decide) (fun ⟨i, hi, _⟩ => absurd hi (by simp [State.init])) (by decide)).2.2.2.1⟩

/-! ## C11: the unchecked write -/

theorem writeKeyUnsafe_eq {σ : Type} (io : Transport σ) (s : State σ) (conn : Nat)
    (val : SMCVal_t) :
    SMCWriteKeyUnsafe io s conn val =
      ((io s.world conn KERNEL_INDEX_SMC (writeRequest val) zeroKeyData).1,
        { s with
          world := (io s.world conn KERNEL_INDEX_SMC (writeRequest val) zeroKeyData).2.2
          calls := s.calls ++ [writeRequest val] }) := by
  by_cases h : (io s.world conn KERNEL_INDEX_SMC (writeRequest val) zeroKeyData).1
      = kIOReturnSuccess
  · have hc : ¬ ((SMCCall io s conn KERNEL_INDEX_SMC (writeRequest val) zeroKeyData).1
        ≠ kIOReturnSuccess) := not_not.mpr h
    have e : SMCWriteKeyUnsafe io s conn val =
        (kIOReturnSuccess,
          (SMCCall io s conn KERNEL_INDEX_SMC (writeRequest val) zeroKeyData).2.2) :=
      if_neg hc
    rw [e, h]
    rfl
  · have hc : (SMCCall io s conn KERNEL_INDEX_SMC (writeRequest val) zeroKeyData).1
        ≠ kIOReturnSuccess := h
    have e : SMCWriteKeyUnsafe io s conn val =
        ((SMCCall io s conn KERNEL_INDEX_SMC (writeRequest val) zeroKeyData).1,
          (SMCCall io s conn KERNEL_INDEX_SMC (writeRequest val) zeroKeyData).2.2) :=
      if_pos hc
    rw [e]
    rfl

/-- C11: for every value and state, `SMCWriteKeyUnsafe` returns the status
of the transport verbatim; it logs exactly one transport call and no "read
key info" call; the request of that call carries `_strtoul(val->key, 4, 16)`,
`SMC_CMD_WRITE_BYTES`, the value's `dataSize`, the value's whole byte
buffer, and zero elsewhere; the cache array and the entry count are left
unchanged. -/
theorem writeKeyUnsafe_single_call {σ : Type} (io : Transport σ) (s : State σ) (conn : Nat)
    (val : SMCVal_t) :
    (SMCWriteKeyUnsafe io s conn val).1
      = (io s.world conn KERNEL_INDEX_SMC (writeRequest val) zeroKeyData).1 ∧
    (SMCWriteKeyUnsafe io s conn val).2.calls = s.calls ++ [writeRequest val] ∧
    (SMCWriteKeyUnsafe io s conn val).2.calls.length = s.calls.length + 1 ∧
    callCount SMC_CMD_READ_KEYINFO (SMCWriteKeyUnsafe io s conn val).2.calls
      = callCount SMC_CMD_READ_KEYINFO s.calls ∧
    writeRequest val =
      { key := _strtoul val.key 4 16
        keyInfo := { dataSize := val.dataSize, dataType := 0, dataAttributes := 0 }
        data8 := SMC_CMD_WRITE_BYTES
        bytes := val.bytes
        others := 0 } ∧
    (SMCWriteKeyUnsafe io s conn val).2.g_keyInfoCache = s.g_keyInfoCache ∧
    (SMCWriteKeyUnsafe io s conn val).2.g_keyInfoCacheCount = s.g_keyInfoCacheCount := by
  rw [writeKeyUnsafe_eq]
  refine ⟨rfl, rfl, ?_, ?_, rfl, rfl, rfl⟩
  · show (s.calls ++ [writeRequest val]).length = _
    simp
  · show callCount SMC_CMD_READ_KEYINFO (s.calls ++ [writeRequest val]) = _
    rw [callCount_append_one]
    have : ¬ ((writeRequest val).data8 = SMC_CMD_READ_KEYINFO) := by
      show ¬ (SMC_CMD_WRITE_BYTES = SMC_CMD_READ_KEYINFO)
      decide
    rw [if_neg this]
    rfl

/-! ## C15, C16: hits, and what a lookup changes in the cache -/

/-- C15: if the key is the key of one of the first `g_keyInfoCacheCount`
entries, then, `j0` being the first such entry, `SMCGetKeyInfo` returns
success with the metadata stored in entry `j0`, and leaves the whole state
(cache, count, world, transport log) unchanged, so no transport call is
made. -/
theorem getKeyInfo_cache_hit {σ : Type} (io : Transport σ) (s : State σ) (conn key : Nat)
    (ki : SMCKeyData_keyInfo_t)
    (hc : cached s.g_keyInfoCache s.g_keyInfoCacheCount key) :
    ∃ j0 : Nat, (j0 : Int) < s.g_keyInfoCacheCount ∧
      key = (s.g_keyInfoCache.read j0).key ∧
      (∀ j : Nat, j < j0 → key ≠ (s.g_keyInfoCache.read j).key) ∧
      SMCGetKeyInfo io s conn key ki
        = (kIOReturnSuccess, (s.g_keyInfoCache.read j0).keyInfo, s) ∧
      (SMCGetKeyInfo io s conn key ki).2.2.calls = s.calls := by
  obtain ⟨j0, hj0, hkey, hfirst⟩ := cached_first _ _ _ hc
  have h := getKeyInfo_hit io s conn key ki j0 hj0 hkey hfirst
  refine ⟨j0, hj0, hkey, hfirst, h, ?_⟩
  rw [h]

theorem getKeyInfo_cache_hit_witness :
    cached warmState.g_keyInfoCache warmState.g_keyInfoCacheCount 0x54433050 ∧
    ∃ j0 : Nat, (j0 : Int) < warmState.g_keyInfoCacheCount ∧
      0x54433050 = (warmState.g_keyInfoCache.read j0).key ∧
      (∀ j : Nat, j < j0 → 0x54433050 ≠ (warmState.g_keyInfoCache.read j).key) ∧
      SMCGetKeyInfo sampleTransport warmState 0 0x54433050 zeroKeyInfo
        = (kIOReturnSuccess, (warmState.g_keyInfoCache.read j0).keyInfo, warmState) ∧
      (SMCGetKeyInfo sampleTransport warmState 0 0x54433050 zeroKeyInfo).2.2.calls
        = warmState.calls :=
  ⟨⟨0, by decide, by decide⟩,
    getKeyInfo_cache_hit sampleTransport warmState 0 0x54433050 zeroKeyInfo
      ⟨0, by decide, by decide⟩⟩

/-- C16: for every `SMCGetKeyInfo` call, every entry below the entry count
is, after the call, at the same index with the same key and metadata; the
count is unchanged or larger by exactly one; it grows exactly when the key
was not cached, the transport answered "read key info" with success and
the count was below `KEY_INFO_CACHE_SIZE`; and then the entry appended at
the old count is the requested key with the fetched metadata, which is also
what the call returns. -/
theorem getKeyInfo_cache_frame {σ : Type} (io : Transport σ) (s : State σ) (conn key : Nat)
    (ki : SMCKeyData_keyInfo_t) :
    (∀ i : Nat, (i : Int) < s.g_keyInfoCacheCount →
      (SMCGetKeyInfo io s conn key ki).2.2.g_keyInfoCache.read i = s.g_keyInfoCache.read i) ∧
    ((SMCGetKeyInfo io s conn key ki).2.2.g_keyInfoCacheCount = s.g_keyInfoCacheCount ∨
      (SMCGetKeyInfo io s conn key ki).2.2.g_keyInfoCacheCount = s.g_keyInfoCacheCount + 1) ∧
    ((SMCGetKeyInfo io s conn key ki).2.2.g_keyInfoCacheCount = s.g_keyInfoCacheCount + 1 ↔
      (0 ≤ s.g_keyInfoCacheCount ∧
        ¬ cached s.g_keyInfoCache s.g_keyInfoCacheCount key ∧
        (io s.world conn KERNEL_INDEX_SMC (keyInfoRequest key) zeroKeyData).1
          = kIOReturnSuccess ∧
        s.g_keyInfoCacheCount < (KEY_INFO_CACHE_SIZE : Int))) ∧
    ((SMCGetKeyInfo io s conn key ki).2.2.g_keyInfoCacheCount = s.g_keyInfoCacheCount + 1 →
      (SMCGetKeyInfo io s conn key ki).2.2.g_keyInfoCache.read s.g_keyInfoCacheCount.toNat
        = ⟨key, (io s.world conn KERNEL_INDEX_SMC (keyInfoRequest key)
            zeroKeyData).2.1.keyInfo⟩ ∧
      (SMCGetKeyInfo io s conn key ki).2.1
        = (io s.world conn KERNEL_INDEX_SMC (keyInfoRequest key) zeroKeyData).2.1.keyInfo) := by
  by_cases hneg : s.g_keyInfoCacheCount < 0
  · rw [getKeyInfo_negative io s conn key ki hneg]
    refine ⟨fun _ _ => rfl, Or.inl rfl, ⟨fun h => ?_, fun h => ?_⟩, fun h => ?_⟩
    · exact absurd h (by show ¬ (s.g_keyInfoCacheCount = s.g_keyInfoCacheCount + 1); omega)
    · omega
    · exact absurd h (by show ¬ (s.g_keyInfoCacheCount = s.g_keyInfoCacheCount + 1); omega)
  · have hpos : 0 ≤ s.g_keyInfoCacheCount := by omega
    by_cases hc : cached s.g_keyInfoCache s.g_keyInfoCacheCount key
    · obtain ⟨j0, hj0, hkey, hfirst⟩ := cached_first _ _ _ hc
      rw [getKeyInfo_hit io s conn key ki j0 hj0 hkey hfirst]
      refine ⟨fun _ _ => rfl, Or.inl rfl, ⟨fun h => ?_, fun h => ?_⟩, fun h => ?_⟩
      · exact absurd h (by show ¬ (s.g_keyInfoCacheCount = s.g_keyInfoCacheCount + 1); omega)
      · exact absurd hc h.2.1
      · exact absurd h (by show ¬ (s.g_keyInfoCacheCount = s.g_keyInfoCacheCount + 1); omega)
    · rw [getKeyInfo_miss io s conn key ki hpos hc]
      by_cases hcall : (SMCCall io s conn KERNEL_INDEX_SMC (keyInfoRequest key) zeroKeyData).1
          = kIOReturnSuccess
      · have hio : (io s.world conn KERNEL_INDEX_SMC (keyInfoRequest key) zeroKeyData).1
            = kIOReturnSuccess := hcall
        rw [if_pos hcall]
        by_cases hroom : s.g_keyInfoCacheCount < (KEY_INFO_CACHE_SIZE : Int)
        · rw [if_pos hroom]
          have hn : s.g_keyInfoCacheCount.toNat < KEY_INFO_CACHE_SIZE := by omega
          refine ⟨fun i hi => ?_, Or.inr rfl, ⟨fun _ => ⟨hpos, hc, hio, hroom⟩, fun _ => rfl⟩,
            fun _ => ⟨?_, rfl⟩⟩
          · show (s.g_keyInfoCache.write s.g_keyInfoCacheCount.toNat _).read i = _
            exact KeyInfoCache.read_write_other _ _ _ _ (by omega)
          · show (s.g_keyInfoCache.write s.g_keyInfoCacheCount.toNat _).read
              s.g_keyInfoCacheCount.toNat = _
            rw [KeyInfoCache.read_write_same _ _ _ hn]
            rfl
        · rw [if_neg hroom]
          refine ⟨fun _ _ => rfl, Or.inl rfl, ⟨fun h => ?_, fun h => ?_⟩, fun h => ?_⟩
          · exact absurd h
              (by show ¬ (s.g_keyInfoCacheCount = s.g_keyInfoCacheCount + 1); omega)
          · exact absurd h.2.2.2 hroom
          · exact absurd h
              (by show ¬ (s.g_keyInfoCacheCount = s.g_keyInfoCacheCount + 1); omega)
      · have hio : ¬ ((io s.world conn KERNEL_INDEX_SMC (keyInfoRequest key) zeroKeyData).1
            = kIOReturnSuccess) := hcall
        rw [if_neg hcall]
        refine ⟨fun _ _ => rfl, Or.inl rfl, ⟨fun h => ?_, fun h => ?_⟩, fun h => ?_⟩
        · exact absurd h
            (by show ¬ (s.g_keyInfoCacheCount = s.g_keyInfoCacheCount + 1); omega)
        · exact absurd h.2.2.1 hio
        · exact absurd h
            (by show ¬ (s.g_keyInfoCacheCount = s.g_keyInfoCacheCount + 1); omega)

theorem getKeyInfo_cache_frame_witness :
    (SMCGetKeyInfo sampleTransport (State.init ()) 0 0x54433050 zeroKeyInfo).2.2.g_keyInfoCacheCount
      = (State.init ()).g_keyInfoCacheCount + 1 ∧
    (SMCGetKeyInfo sampleTransport (State.init ()) 0 0x54433050
        zeroKeyInfo).2.2.g_keyInfoCache.read (State.init ()).g_keyInfoCacheCount.toNat
      = ⟨0x54433050, (sampleTransport (State.init ()).world 0 KERNEL_INDEX_SMC
          (keyInfoRequest 0x54433050) zeroKeyData).2.1.keyInfo⟩ ∧
    (SMCGetKeyInfo sampleTransport (State.init ()) 0 0x54433050 zeroKeyInfo).2.1
      = (sampleTransport (State.init ()).world 0 KERNEL_INDEX_SMC
          (keyInfoRequest 0x54433050) zeroKeyData).2.1.keyInfo :=
  ⟨by decide,
    (getKeyInfo_cache_frame sampleTransport (State.init ()) 0 0x54433050 zeroKeyInfo).2.2.2
      (by decide)⟩

/-! ## The effect of each operation on the cache -/

theorem getKeyInfo_cacheStep {σ : Type} (io : Transport σ) (s : State σ) (conn key : Nat)
    (ki : SMCKeyData_keyInfo_t) : CacheStep io s (SMCGetKeyInfo io s conn key ki).2.2 := by
  by_cases hneg : s.g_keyInfoCacheCount < 0
  · rw [getKeyInfo_negative io s conn key ki hneg]
    exact Or.inl ⟨rfl, rfl⟩
  · have hpos : 0 ≤ s.g_keyInfoCacheCount := by omega
    by_cases hc : cached s.g_keyInfoCache s.g_keyInfoCacheCount key
    · obtain ⟨j0, hj0, hkey, hfirst⟩ := cached_first _ _ _ hc
      rw [getKeyInfo_hit io s conn key ki j0 hj0 hkey hfirst]
      exact Or.inl ⟨rfl, rfl⟩
    · rw [getKeyInfo_miss io s conn key ki hpos hc]
      by_cases hcall : (SMCCall io s conn KERNEL_INDEX_SMC (keyInfoRequest key) zeroKeyData).1
          = kIOReturnSuccess
      · rw [if_pos hcall]
        by_cases hroom : s.g_keyInfoCacheCount < (KEY_INFO_CACHE_SIZE : Int)
        · rw [if_pos hroom]
          exact Or.inr ⟨conn, key, hpos, hroom, hc, hcall, rfl, rfl⟩
        · rw [if_neg hroom]
          exact Or.inl ⟨rfl, rfl⟩
      · rw [if_neg hcall]
        exact Or.inl ⟨rfl, rfl⟩

theorem readKey_cache {σ : Type} (io : Transport σ) (s : State σ) (conn : Nat)
    (key : List Nat) :
    (SMCReadKey io s conn key).2.2.g_keyInfoCache = (readKeyInfo io s conn key).2.2.g_keyInfoCache ∧
    (SMCReadKey io s conn key).2.2.g_keyInfoCacheCount
      = (readKeyInfo io s conn key).2.2.g_keyInfoCacheCount := by
  rw [readKey_eq]
  split_ifs <;> exact ⟨rfl, rfl⟩

theorem writeKey_cache {σ : Type} (io : Transport σ) (s : State σ) (conn : Nat)
    (val : SMCVal_t) :
    (SMCWriteKey io s conn val).2.g_keyInfoCache
      = (readKeyInfo io s conn val.key).2.2.g_keyInfoCache ∧
    (SMCWriteKey io s conn val).2.g_keyInfoCacheCount
      = (readKeyInfo io s conn val.key).2.2.g_keyInfoCacheCount := by
  have hr := readKey_cache io s conn val.key
  unfold SMCWriteKey
  simp only []
  split_ifs
  · exact hr
  · exact hr
  · rw [writeKeyUnsafe_eq]
    exact hr

theorem cacheStep_congr {σ : Type} (io : Transport σ) (s t u : State σ)
    (hcache : u.g_keyInfoCache = t.g_keyInfoCache)
    (hcount : u.g_keyInfoCacheCount = t.g_keyInfoCacheCount) (h : CacheStep io s t) :
    CacheStep io s u := by
  unfold CacheStep at h ⊢
  rw [hcache, hcount]
  exact h

theorem step_cacheStep {σ : Type} (io : Transport σ) (s : State σ) (op : Op) :
    CacheStep io s (step io s op) := by
  cases op with
  | getKeyInfo conn key ki => exact getKeyInfo_cacheStep io s conn key ki
  | readKey conn key =>
    exact cacheStep_congr io s _ _ (readKey_cache io s conn key).1 (readKey_cache io s conn key).2
      (getKeyInfo_cacheStep io s conn (_strtoul key 4 16) zeroKeyInfo)
  | writeKey conn val =>
    exact cacheStep_congr io s _ _ (writeKey_cache io s conn val).1
      (writeKey_cache io s conn val).2
      (getKeyInfo_cacheStep io s conn (_strtoul val.key 4 16) zeroKeyInfo)
  | writeKeyUnsafe conn val =>
    show CacheStep io s (SMCWriteKeyUnsafe io s conn val).2
    rw [writeKeyUnsafe_eq]
    exact Or.inl ⟨rfl, rfl⟩

/-- A property of states kept by every cache step holds along every run. -/
theorem run_invariant {σ : Type} (io : Transport σ) (P : State σ → Prop)
    (hstep : ∀ s t : State σ, P s → CacheStep io s t → P t) (ops : List Op) :
    ∀ s : State σ, P s → P (run io s ops) := by
  induction ops with
  | nil => intro s h; exact h
  | cons op rest ih =>
    intro s h
    exact ih (step io s op) (hstep s _ h (step_cacheStep io s op))

theorem getKeyInfo_miss_calls {σ : Type} (io : Transport σ) (s : State σ) (conn key : Nat)
    (ki : SMCKeyData_keyInfo_t) (hpos : 0 ≤ s.g_keyInfoCacheCount)
    (hmiss : ¬ cached s.g_keyInfoCache s.g_keyInfoCacheCount key) :
    (SMCGetKeyInfo io s conn key ki).2.2.calls = s.calls ++ [keyInfoRequest key] := by
  rw [getKeyInfo_miss io s conn key ki hpos hmiss]
  split_ifs <;> rfl

/-! ## C12: a lookup at capacity -/

/-- C12: when the cache holds `KEY_INFO_CACHE_SIZE` entries, none of them
for the requested key, and the transport answers "read key info" with
success, `SMCGetKeyInfo` returns success with the fetched metadata and
leaves the cache array and the entry count unchanged; and after any further
calls of the interface the cache is still the same, the key is still not
cached, and a lookup of it logs a fresh "read key info" transport call. -/
theorem getKeyInfo_at_capacity {σ : Type} (io : Transport σ) (s : State σ) (conn key : Nat)
    (ki : SMCKeyData_keyInfo_t)
    (hfull : s.g_keyInfoCacheCount = (KEY_INFO_CACHE_SIZE : Int))
    (hmiss : ¬ cached s.g_keyInfoCache s.g_keyInfoCacheCount key)
    (hok : (io s.world conn KERNEL_INDEX_SMC (keyInfoRequest key) zeroKeyData).1
      = kIOReturnSuccess) :
    (SMCGetKeyInfo io s conn key ki).1 = kIOReturnSuccess ∧
    (SMCGetKeyInfo io s conn key ki).2.1
      = (io s.world conn KERNEL_INDEX_SMC (keyInfoRequest key) zeroKeyData).2.1.keyInfo ∧
    (SMCGetKeyInfo io s conn key ki).2.2.g_keyInfoCache = s.g_keyInfoCache ∧
    (SMCGetKeyInfo io s conn key ki).2.2.g_keyInfoCacheCount = s.g_keyInfoCacheCount ∧
    ∀ (ops : List Op) (conn2 : Nat) (ki2 : SMCKeyData_keyInfo_t),
      (run io (SMCGetKeyInfo io s conn key ki).2.2 ops).g_keyInfoCache = s.g_keyInfoCache ∧
      (run io (SMCGetKeyInfo io s conn key ki).2.2 ops).g_keyInfoCacheCount
        = s.g_keyInfoCacheCount ∧
      ¬ cached (run io (SMCGetKeyInfo io s conn key ki).2.2 ops).g_keyInfoCache
        (run io (SMCGetKeyInfo io s conn key ki).2.2 ops).g_keyInfoCacheCount key ∧
      (SMCGetKeyInfo io (run io (SMCGetKeyInfo io s conn key ki).2.2 ops) conn2 key ki2).2.2.calls
        = (run io (SMCGetKeyInfo io s conn key ki).2.2 ops).calls ++ [keyInfoRequest key] := by
  have hpos : 0 ≤ s.g_keyInfoCacheCount := by rw [hfull]; exact Int.natCast_nonneg _
  have hroom : ¬ (s.g_keyInfoCacheCount < (KEY_INFO_CACHE_SIZE : Int)) := by omega
  have hcall : (SMCCall io s conn KERNEL_INDEX_SMC (keyInfoRequest key) zeroKeyData).1
      = kIOReturnSuccess := hok
  have hfirst : SMCGetKeyInfo io s conn key ki =
      (kIOReturnSuccess,
        (SMCCall io s conn KERNEL_INDEX_SMC (keyInfoRequest key) zeroKeyData).2.1.keyInfo,
        (SMCCall io s conn KERNEL_INDEX_SMC (keyInfoRequest key) zeroKeyData).2.2) := by
    rw [getKeyInfo_miss io s conn key ki hpos hmiss, if_pos hcall, if_neg hroom]
  rw [hfirst]
  refine ⟨rfl, rfl, rfl, rfl, ?_⟩
  intro ops conn2 ki2
  have hinv := run_invariant io
    (fun t => t.g_keyInfoCache = s.g_keyInfoCache ∧
      t.g_keyInfoCacheCount = s.g_keyInfoCacheCount)
    (by
      intro a b ha hab
      rcases hab with ⟨h1, h2⟩ | ⟨c, k, _, hlt, _⟩
      · exact ⟨h1.trans ha.1, h2.trans ha.2⟩
      · rw [ha.2] at hlt
        exact absurd hlt hroom)
    ops (SMCCall io s conn KERNEL_INDEX_SMC (keyInfoRequest key) zeroKeyData).2.2 ⟨rfl, rfl⟩
  have hstill : ¬ cached
      (run io (SMCCall io s conn KERNEL_INDEX_SMC (keyInfoRequest key) zeroKeyData).2.2
        ops).g_keyInfoCache
      (run io (SMCCall io s conn KERNEL_INDEX_SMC (keyInfoRequest key) zeroKeyData).2.2
        ops).g_keyInfoCacheCount key := by
    rw [hinv.1, hinv.2]
    exact hmiss
  refine ⟨hinv.1, hinv.2, hstill, ?_⟩
  exact getKeyInfo_miss_calls io _ conn2 key ki2 (by rw [hinv.2]; exact hpos) hstill

theorem fullState_not_cached_zero {σ : Type} (w : σ) :
    ¬ cached (fullState w).g_keyInfoCache (fullState w).g_keyInfoCacheCount 0 := by
  rintro ⟨i, hi, hk⟩
  have hi2 : i < 100 := by
    have : (i : Int) < 100 := hi
    omega
  have hr : ((fullState w).g_keyInfoCache.read i).key = i + 1 := by
    simp [fullState, fullCache, KeyInfoCache.read, KEY_INFO_CACHE_SIZE,
      List.getD_eq_getElem?_getD, hi2]
  rw [hr] at hk
  omega

theorem getKeyInfo_at_capacity_witness :
    ((fullState ()).g_keyInfoCacheCount = (KEY_INFO_CACHE_SIZE : Int)) ∧
    (¬ cached (fullState ()).g_keyInfoCache (fullState ()).g_keyInfoCacheCount 0) ∧
    (sampleTransport (fullState ()).world 0 KERNEL_INDEX_SMC (keyInfoRequest 0) zeroKeyData).1
      = kIOReturnSuccess ∧
    (SMCGetKeyInfo sampleTransport (fullState ()) 0 0 zeroKeyInfo).1 = kIOReturnSuccess ∧
    (SMCGetKeyInfo sampleTransport (fullState ()) 0 0 zeroKeyInfo).2.1 = sampleInfo 0 ∧
    (SMCGetKeyInfo sampleTransport (fullState ()) 0 0 zeroKeyInfo).2.2.g_keyInfoCacheCount
      = 100 :=
  ⟨by decide, fullState_not_cached_zero (), by decide,
    (getKeyInfo_at_capacity sampleTransport (fullState ()) 0 0 zeroKeyInfo (by decide)
      (fullState_not_cached_zero ()) (by decide)).1,
    (getKeyInfo_at_capacity sampleTransport (fullState ()) 0 0 zeroKeyInfo (by decide)
      (fullState_not_cached_zero ()) (by decide)).2.1,
    (getKeyInfo_at_capacity sampleTransport (fullState ()) 0 0 zeroKeyInfo (by decide)
      (fullState_not_cached_zero ()) (by decide)).2.2.2.1⟩

/-! ## C13: keys are inserted at most once -/

theorem cacheStep_distinct {σ : Type} (io : Transport σ) (s t : State σ)
    (hs : DistinctKeys s) (hst : CacheStep io s t) : DistinctKeys t := by
  rcases hst with ⟨h1, h2⟩ | ⟨conn, key, hpos, hroom, hmiss, _, hcache, hcount⟩
  · unfold DistinctKeys at hs ⊢
    rw [h1, h2]
    exact hs
  · have hn : s.g_keyInfoCacheCount.toNat < KEY_INFO_CACHE_SIZE := by omega
    unfold DistinctKeys at hs ⊢
    rw [hcache, hcount]
    intro i j hi hj hkey
    by_cases hie : i = s.g_keyInfoCacheCount.toNat
    · by_cases hje : j = s.g_keyInfoCacheCount.toNat
      · rw [hie, hje]
      · exfalso
        rw [hie, KeyInfoCache.read_write_same _ _ _ hn,
          KeyInfoCache.read_write_other _ _ _ _ hje] at hkey
        exact hmiss ⟨j, by omega, hkey⟩
    · by_cases hje : j = s.g_keyInfoCacheCount.toNat
      · exfalso
        rw [hje, KeyInfoCache.read_write_same _ _ _ hn,
          KeyInfoCache.read_write_other _ _ _ _ hie] at hkey
        exact hmiss ⟨i, by omega, hkey.symm⟩
      · rw [KeyInfoCache.read_write_other _ _ _ _ hie,
          KeyInfoCache.read_write_other _ _ _ _ hje] at hkey
        exact hs i j (by omega) (by omega) hkey

/-- C13: in every state reached from the empty cache by a sequence of
`SMCGetKeyInfo`, `SMCReadKey`, `SMCWriteKey` (and `SMCWriteKeyUnsafe`)
calls, with any transport, no two of the first `g_keyInfoCacheCount`
entries hold the same key. -/
theorem cache_keys_distinct {σ : Type} (io : Transport σ) (w : σ) (ops : List Op) :
    ∀ i j : Nat, (i : Int) < (run io (State.init w) ops).g_keyInfoCacheCount →
      (j : Int) < (run io (State.init w) ops).g_keyInfoCacheCount →
      ((run io (State.init w) ops).g_keyInfoCache.read i).key
        = ((run io (State.init w) ops).g_keyInfoCache.read j).key → i = j := by
  have h : DistinctKeys (run io (State.init w) ops) :=
    run_invariant io DistinctKeys (cacheStep_distinct io) ops (State.init w)
      (by
        intro i j hi _ _
        have : (i : Int) < 0 := hi
        omega)
  exact h

theorem cache_keys_distinct_witness :
    ((0 : Nat) : Int) < (run sampleTransport (State.init ())
        [Op.readKey 0 keyTC0P, Op.readKey 0 keyTC0P]).g_keyInfoCacheCount ∧
    (run sampleTransport (State.init ())
        [Op.readKey 0 keyTC0P, Op.readKey 0 keyTC0P]).g_keyInfoCacheCount = 1 ∧
    (0 : Nat) = 0 :=
  ⟨by decide, by decide,
    cache_keys_distinct sampleTransport () [Op.readKey 0 keyTC0P, Op.readKey 0 keyTC0P] 0 0
      (by decide) (by decide) (by decide)⟩

/-! ## C17: caching is sound -/

theorem cacheStep_sound {σ : Type} (io : Transport σ) (info : Nat → SMCKeyData_keyInfo_t)
    (hfix : ∀ (w : σ) (conn key : Nat),
      (io w conn KERNEL_INDEX_SMC (keyInfoRequest key) zeroKeyData).1 = kIOReturnSuccess →
      (io w conn KERNEL_INDEX_SMC (keyInfoRequest key) zeroKeyData).2.1.keyInfo = info key)
    (s t : State σ) (hs : CacheSound info s) (hst : CacheStep io s t) : CacheSound info t := by
  rcases hst with ⟨h1, h2⟩ | ⟨conn, key, hpos, hroom, _, hok, hcache, hcount⟩
  · unfold CacheSound at hs ⊢
    rw [h1, h2]
    exact hs
  · have hn : s.g_keyInfoCacheCount.toNat < KEY_INFO_CACHE_SIZE := by omega
    unfold CacheSound at hs ⊢
    rw [hcache, hcount]
    intro i hi
    by_cases hie : i = s.g_keyInfoCacheCount.toNat
    · rw [hie, KeyInfoCache.read_write_same _ _ _ hn]
      exact hfix s.world conn key hok
    · rw [KeyInfoCache.read_write_other _ _ _ _ hie]
      exact hs i (by omega)

theorem getKeyInfo_sound {σ : Type} (io : Transport σ) (info : Nat → SMCKeyData_keyInfo_t)
    (hfix : ∀ (w : σ) (conn key : Nat),
      (io w conn KERNEL_INDEX_SMC (keyInfoRequest key) zeroKeyData).1 = kIOReturnSuccess →
      (io w conn KERNEL_INDEX_SMC (keyInfoRequest key) zeroKeyData).2.1.keyInfo = info key)
    (s : State σ) (hs : CacheSound info s) (hpos : 0 ≤ s.g_keyInfoCacheCount)
    (conn key : Nat) (ki : SMCKeyData_keyInfo_t)
    (hok : (SMCGetKeyInfo io s conn key ki).1 = kIOReturnSuccess) :
    (SMCGetKeyInfo io s conn key ki).2.1 = info key := by
  by_cases hc : cached s.g_keyInfoCache s.g_keyInfoCacheCount key
  · obtain ⟨j0, hj0, hkey, hfirst⟩ := cached_first _ _ _ hc
    rw [getKeyInfo_hit io s conn key ki j0 hj0 hkey hfirst]
    show (s.g_keyInfoCache.read j0).keyInfo = info key
    rw [hs j0 hj0, ← hkey]
  · rw [getKeyInfo_miss io s conn key ki hpos hc] at hok ⊢
    by_cases hcall : (SMCCall io s conn KERNEL_INDEX_SMC (keyInfoRequest key) zeroKeyData).1
        = kIOReturnSuccess
    · have hinfo := hfix s.world conn key hcall
      rw [if_pos hcall]
      split_ifs <;> exact hinfo
    · rw [if_neg hcall] at hok
      exact absurd hok hcall

/-- C17: if the metadata in a successful "read key info" response of the
transport is a fixed function `info` of the key, then in every state
reached from the empty cache each of the first `g_keyInfoCacheCount`
entries holds `info` of its key, every successful `SMCGetKeyInfo` call
returns `info` of the requested key, and so does every successful call of
the lookup without a cache: the two agree whenever both succeed. -/
theorem cache_is_sound {σ : Type} (io : Transport σ) (info : Nat → SMCKeyData_keyInfo_t)
    (hfix : ∀ (w : σ) (conn key : Nat),
      (io w conn KERNEL_INDEX_SMC (keyInfoRequest key) zeroKeyData).1 = kIOReturnSuccess →
      (io w conn KERNEL_INDEX_SMC (keyInfoRequest key) zeroKeyData).2.1.keyInfo = info key)
    (w0 : σ) (ops : List Op) :
    (∀ i : Nat, (i : Int) < (run io (State.init w0) ops).g_keyInfoCacheCount →
      ((run io (State.init w0) ops).g_keyInfoCache.read i).keyInfo
        = info ((run io (State.init w0) ops).g_keyInfoCache.read i).key) ∧
    (∀ (conn key : Nat) (ki : SMCKeyData_keyInfo_t),
      (SMCGetKeyInfo io (run io (State.init w0) ops) conn key ki).1 = kIOReturnSuccess →
      (SMCGetKeyInfo io (run io (State.init w0) ops) conn key ki).2.1 = info key ∧
      ∀ (t : State σ) (conn2 : Nat) (ki2 : SMCKeyData_keyInfo_t),
        (getKeyMetadataNoCache io t conn2 key ki2).1 = kIOReturnSuccess →
        (getKeyMetadataNoCache io t conn2 key ki2).2.1
          = (SMCGetKeyInfo io (run io (State.init w0) ops) conn key ki).2.1) := by
  have hsound : CacheSound info (run io (State.init w0) ops) :=
    run_invariant io (CacheSound info) (cacheStep_sound io info hfix) ops (State.init w0)
      (by
        intro i hi
        have : (i : Int) < 0 := hi
        omega)
  have hb : CountInBounds (run io (State.init w0) ops) :=
    run_bounds io ops (State.init w0)
      ⟨show (0 : Int) ≤ 0 by decide, show (0 : Int) ≤ (KEY_INFO_CACHE_SIZE : Int) by decide⟩
  refine ⟨hsound, ?_⟩
  intro conn key ki hok
  have hget := getKeyInfo_sound io info hfix _ hsound hb.1 conn key ki hok
  refine ⟨hget, ?_⟩
  intro t conn2 ki2 hok2
  rw [hget]
  unfold getKeyMetadataNoCache at hok2 ⊢
  simp only [] at hok2 ⊢
  by_cases hcall : (SMCCall io t conn2 KERNEL_INDEX_SMC (keyInfoRequest key) zeroKeyData).1
      = kIOReturnSuccess
  · rw [if_pos hcall]
    exact hfix t.world conn2 key hcall
  · rw [if_neg hcall] at hok2
    exact absurd hok2 hcall

theorem sampleTransport_fixed (w : Unit) (conn key : Nat) :
    (sampleTransport w conn KERNEL_INDEX_SMC (keyInfoRequest key) zeroKeyData).2.1.keyInfo
      = sampleInfo key := rfl

theorem cache_is_sound_witness :
    (∀ (w : Unit) (conn key : Nat),
      (sampleTransport w conn KERNEL_INDEX_SMC (keyInfoRequest key) zeroKeyData).1
        = kIOReturnSuccess →
      (sampleTransport w conn KERNEL_INDEX_SMC (keyInfoRequest key) zeroKeyData).2.1.keyInfo
        = sampleInfo key) ∧
    (SMCGetKeyInfo sampleTransport (run sampleTransport (State.init ()) [Op.readKey 0 keyTC0P])
      0 0x54433050 zeroKeyInfo).1 = kIOReturnSuccess ∧
    (SMCGetKeyInfo sampleTransport (run sampleTransport (State.init ()) [Op.readKey 0 keyTC0P])
      0 0x54433050 zeroKeyInfo).2.1 = sampleInfo 0x54433050 ∧
    (getKeyMetadataNoCache sampleTransport (State.init ()) 0 0x54433050 zeroKeyInfo).1
      = kIOReturnSuccess ∧
    (getKeyMetadataNoCache sampleTransport (State.init ()) 0 0x54433050 zeroKeyInfo).2.1
      = (SMCGetKeyInfo sampleTransport
          (run sampleTransport (State.init ()) [Op.readKey 0 keyTC0P])
          0 0x54433050 zeroKeyInfo).2.1 :=
  ⟨fun w conn key _ => sampleTransport_fixed w conn key, by decide,
    ((cache_is_sound sampleTransport sampleInfo
      (fun w conn key _ => sampleTransport_fixed w conn key) ()
      [Op.readKey 0 keyTC0P]).2 0 0x54433050 zeroKeyInfo (by decide)).1,
    by decide,
    ((cache_is_sound sampleTransport sampleInfo
      (fun w conn key _ => sampleTransport_fixed w conn key) ()
      [Op.readKey 0 keyTC0P]).2 0 0x54433050 zeroKeyInfo (by decide)).2
        (State.init ()) 0 zeroKeyInfo (by decide)⟩

/-! ## C18: what `kIOReturnError` from `SMCWriteKey` tells the caller -/

theorem getKeyInfo_status {σ : Type} (io : Transport σ) (s : State σ) (conn key : Nat)
    (ki : SMCKeyData_keyInfo_t) :
    (SMCGetKeyInfo io s conn key ki).1 = kIOReturnSuccess ∨
    (SMCGetKeyInfo io s conn key ki).1
      = (io s.world conn KERNEL_INDEX_SMC (keyInfoRequest key) zeroKeyData).1 := by
  unfold SMCGetKeyInfo
  simp only []
  split_ifs with h1 h2 h3
  · left; exact h2
  · left; exact h2
  · right; rfl
  · left; rfl

/-- C18 (as amended): `SMCWriteKey` returns `kIOReturnError` whenever the
preceding read succeeded and resolved a `dataSize` different from the
caller's; and, provided the transport itself never returns the status
`kIOReturnError`, it returns `kIOReturnError` only then. -/
theorem writeKey_error_iff {σ : Type} (io : Transport σ) (s : State σ) (conn : Nat)
    (val : SMCVal_t) :
    (((SMCReadKey io s conn val.key).1 = kIOReturnSuccess ∧
        (SMCReadKey io s conn val.key).2.1.dataSize ≠ val.dataSize) →
      (SMCWriteKey io s conn val).1 = kIOReturnError) ∧
    ((∀ (w : σ) (c : Nat) (idx : Int) (inp out : SMCKeyData_t),
        (io w c idx inp out).1 ≠ kIOReturnError) →
      ((SMCWriteKey io s conn val).1 = kIOReturnError ↔
        ((SMCReadKey io s conn val.key).1 = kIOReturnSuccess ∧
          (SMCReadKey io s conn val.key).2.1.dataSize ≠ val.dataSize))) := by
  have hne : kIOReturnSuccess ≠ kIOReturnError := by decide
  have hif : ((SMCReadKey io s conn val.key).1 = kIOReturnSuccess ∧
        (SMCReadKey io s conn val.key).2.1.dataSize ≠ val.dataSize) →
      (SMCWriteKey io s conn val).1 = kIOReturnError := by
    rintro ⟨hread, hsize⟩
    unfold SMCWriteKey
    simp only []
    rw [if_neg (not_not.mpr hread), if_pos hsize]
  refine ⟨hif, fun hio => ⟨fun herr => ?_, hif⟩⟩
  have hread_status : (SMCReadKey io s conn val.key).1 ≠ kIOReturnError := by
    rw [readKey_eq]
    split_ifs with h1 h2
    · rcases getKeyInfo_status io s conn (_strtoul val.key 4 16) zeroKeyInfo with e | e
      · exact absurd e h1
      · show (SMCGetKeyInfo io s conn (_strtoul val.key 4 16) zeroKeyInfo).1 ≠ _
        rw [e]
        exact hio _ _ _ _ _
    · exact hio _ _ _ _ _
    · exact hne
  by_cases hread : (SMCReadKey io s conn val.key).1 = kIOReturnSuccess
  · refine ⟨hread, ?_⟩
    intro hsize
    have hw : SMCWriteKey io s conn val
        = SMCWriteKeyUnsafe io (SMCReadKey io s conn val.key).2.2 conn val := by
      unfold SMCWriteKey
      simp only []
      rw [if_neg (not_not.mpr hread), if_neg (not_not.mpr hsize)]
    rw [hw, writeKeyUnsafe_eq] at herr
    exact hio _ _ _ _ _ herr
  · exfalso
    have hw : (SMCWriteKey io s conn val).1 = (SMCReadKey io s conn val.key).1 := by
      unfold SMCWriteKey
      simp only []
      rw [if_pos hread]
    rw [hw] at herr
    exact hread_status herr

theorem sampleTransport_never_error (w : Unit) (c : Nat) (idx : Int)
    (inp out : SMCKeyData_t) : (sampleTransport w c idx inp out).1 ≠ kIOReturnError := by
  have hne : kIOReturnSuccess ≠ kIOReturnError := by decide
  unfold sampleTransport
  split_ifs <;> exact hne

theorem writeKey_error_iff_witness :
    ((SMCReadKey sampleTransport (State.init ()) 0 oneByteTC0P.key).1 = kIOReturnSuccess ∧
      (SMCReadKey sampleTransport (State.init ()) 0 oneByteTC0P.key).2.1.dataSize
        ≠ oneByteTC0P.dataSize) ∧
    (∀ (w : Unit) (c : Nat) (idx : Int) (inp out : SMCKeyData_t),
      (sampleTransport w c idx inp out).1 ≠ kIOReturnError) ∧
    (SMCWriteKey sampleTransport (State.init ()) 0 oneByteTC0P).1 = kIOReturnError ∧
    ((SMCWriteKey sampleTransport (State.init ()) 0 oneByteTC0P).1 = kIOReturnError ↔
      ((SMCReadKey sampleTransport (State.init ()) 0 oneByteTC0P.key).1 = kIOReturnSuccess ∧
        (SMCReadKey sampleTransport (State.init ()) 0 oneByteTC0P.key).2.1.dataSize
          ≠ oneByteTC0P.dataSize)) :=
  ⟨by decide, sampleTransport_never_error,
    (writeKey_error_iff sampleTransport (State.init ()) 0 oneByteTC0P).1 (by decide),
    (writeKey_error_iff sampleTransport (State.init ()) 0 oneByteTC0P).2
      sampleTransport_never_error⟩

/-- C18 (as stated) fails: when every transport call fails with
`kIOReturnError`, the read inside `SMCWriteKey` does not succeed, yet
`SMCWriteKey` returns `kIOReturnError`, the code it also uses for a size
mismatch; likewise when the read succeeds, the sizes match, and the "write
bytes" call itself fails with `kIOReturnError`. -/
theorem writeKey_error_ambiguous :
    ((SMCWriteKey failingTransport (State.init ()) 0 twoByteTC0P).1 = kIOReturnError ∧
      (SMCReadKey failingTransport (State.init ()) 0 twoByteTC0P.key).1 ≠ kIOReturnSuccess) ∧
    ((SMCWriteKey readOnlyTransport (State.init ()) 0 twoByteTC0P).1 = kIOReturnError ∧
      (SMCReadKey readOnlyTransport (State.init ()) 0 twoByteTC0P.key).1 = kIOReturnSuccess ∧
      (SMCReadKey readOnlyTransport (State.init ()) 0 twoByteTC0P.key).2.1.dataSize
        = twoByteTC0P.dataSize) := by
  decide

/-! ## C19: `_strtoul` in a base other than 16 -/

theorem toUChar_wrap_shifted (c : Int) :
    toUChar (wrapInt32 (c * 256)) = 0 ∧ toUChar (wrapInt32 (c * 65536)) = 0 ∧
    toUChar (wrapInt32 (c * 16777216)) = 0 := by
  unfold toUChar wrapInt32
  have e1 : (2 : Int) ^ 31 = 2147483648 := by norm_num
  have e2 : (2 : Int) ^ 32 = 4294967296 := by norm_num
  rw [e1, e2]
  refine ⟨?_, ?_, ?_⟩ <;> omega

theorem toUChar_wrap_char (b : Nat) : toUChar (wrapInt32 (charToInt b)) = b % 256 := by
  unfold toUChar wrapInt32 charToInt
  have e1 : (2 : Int) ^ 31 = 2147483648 := by norm_num
  have e2 : (2 : Int) ^ 32 = 4294967296 := by norm_num
  rw [e1, e2]
  split_ifs <;> omega

theorem toUInt32_zero : toUInt32 0 = 0 := by
  decide

theorem toUInt32_mod256 (b : Nat) : toUInt32 ((b : Int) % 256) = b % 256 := by
  unfold toUInt32
  have e2 : (2 : Int) ^ 32 = 4294967296 := by norm_num
  rw [e2]
  omega

/-- C19: for every base other than 16 and every size from 1 to 4,
`_strtoul(str, size, base)` is the unsigned value of the last byte
`str[size-1]` alone (every earlier byte, shifted left by at least 8 bits and
then cast to `unsigned char`, contributes 0), hence at most 255. -/
theorem strtoul_other_base_last_byte (str : List Nat) (size base : Int)
    (hbase : base ≠ 16) (h1 : 1 ≤ size) (h4 : size ≤ 4) :
    _strtoul str size base = str.getD (size - 1).toNat 0 % 256 ∧
    _strtoul str size base ≤ 255 := by
  have hval : _strtoul str size base = str.getD (size - 1).toNat 0 % 256 := by
    have hs : size = 1 ∨ size = 2 ∨ size = 3 ∨ size = 4 := by omega
    rcases hs with h | h | h | h <;> subst h <;>
      simp [_strtoul, strtoulLoop, shiftedChar, hbase, toUChar_wrap_shifted,
        toUChar_wrap_char, toUInt32_zero, toUInt32_mod256]
  refine ⟨hval, ?_⟩
  rw [hval]
  omega

theorem strtoul_other_base_last_byte_witness :
    ((10 : Int) ≠ 16 ∧ (1 : Int) ≤ 4 ∧ (4 : Int) ≤ 4) ∧
    _strtoul [0x54, 0x43, 0x30, 0x50] 4 10 = 0x50 ∧
    _strtoul [0x54, 0x43, 0x30, 0x50] 4 10 ≤ 255 :=
  ⟨by decide,
    strtoul_other_base_last_byte [0x54, 0x43, 0x30, 0x50] 4 10 (by decide) (by decide)
      (by decide)⟩

/-! ## Evaluations on concrete inputs -/

example : _strtoul [0x54, 0x43, 0x30, 0x50] 4 16 = 0x54433050 := by decide
example : _strtoul [0x41, 0x80, 0, 0] 4 16 = 0x40800000 := by decide
example : _strtoul [1, 2, 3, 4] 4 10 = 4 := by decide
example : _ultostr [9, 9, 9, 9, 9] 0x73703738 = [0x73, 0x70, 0x37, 0x38, 0] := by decide

example : (SMCReadKey sampleTransport (State.init ()) 0 keyTC0P).1 = 0 := by decide
example : (SMCReadKey sampleTransport (State.init ()) 0 keyTC0P).2.1.dataSize = 2 := by decide
example : (SMCGetKeyInfo countingTransport (fullState 0) 0 0 zeroKeyInfo).2.2.g_keyInfoCacheCount = 100 := by decide

end SMC
